import Mathlib

/-!
Shallow embedding of the claim-relevant core of the `bidimensional` repository:
the circumcircle kernel (src/bidimensional/circumcircle.py) and the cubic
spline engine (src/bidimensional/functions/spline.py), together with the
`Coordinate` value type (src/bidimensional/coordinates.py) and the Euclidean
`distance` helper (src/bidimensional/operations.py).

Python floats are modelled as real numbers, so every identity proved below is
the exact-real counterpart of the floating-point computation.  Python code
that can raise an exception is modelled in the `Except PyErr` monad; a raised
exception is an `.error` value, a normal return is `.ok`.
-/

open scoped Classical

noncomputable section

/-- The `Coordinate` class (coordinates.py): a pair of floats `x`, `y`. -/
structure Coordinate where
  x : ℝ
  y : ℝ

/-- Model of `Coordinate.__sub__`: componentwise difference. -/
def Coordinate.sub (p q : Coordinate) : Coordinate :=
  ⟨p.x - q.x, p.y - q.y⟩

/-- Model of `Coordinate.__bool__`: `self._x != 0 or self._y != 0` (Python truthiness
of a coordinate). -/
def Coordinate.truthy (p : Coordinate) : Prop :=
  p.x ≠ 0 ∨ p.y ≠ 0

/-- The Python exceptions the embedded code can raise. -/
inductive PyErr where
  | valueError
  | typeError
  | indexError
  | zeroDivisionError
  | linAlgError
deriving DecidableEq

/-- Python float division: raises `ZeroDivisionError` on a zero denominator. -/
def pydiv (x d : ℝ) : Except PyErr ℝ :=
  if d = 0 then .error .zeroDivisionError else .ok (x / d)

/-- Model of `math.sqrt`: raises `ValueError` (math domain error) on negative input. -/
def pysqrt (x : ℝ) : Except PyErr ℝ :=
  if x < 0 then .error .valueError else .ok (Real.sqrt x)

/-- Model of `operations.distance`: `sqrt((a.x - b.x)**2 + (a.y - b.y)**2)`. -/
def distance (a b : Coordinate) : ℝ :=
  Real.sqrt ((a.x - b.x) ^ 2 + (a.y - b.y) ^ 2)

/-- The signed-area expression evaluated by `Circumcircle._ensure_non_collinear`:
`a.x * (b.y - c.y) + b.x * (c.y - a.y) + c.x * (a.y - b.y)`; the method raises
`ValueError` exactly when this float is (exactly) zero. -/
def signedArea (a b c : Coordinate) : ℝ :=
  a.x * (b.y - c.y) + b.x * (c.y - a.y) + c.x * (a.y - b.y)

/-- The vertex relabeling at the top of `Circumcircle._calculate`: guarded by
`any(v[1] - v[0] for v in combinations((a, b, c), 2))` (truthiness of the
pairwise differences `b - a`, `c - a`, `c - b`), it swaps `a` and `c` when
`(b - a).x` is zero, and then swaps `a` and `b` when the possibly-updated
`(c - a).x` is zero.  Returns the updated `(a, b, c)`. -/
def applySwaps (a b c : Coordinate) : Coordinate × Coordinate × Coordinate :=
  if (b.sub a).truthy ∨ (c.sub a).truthy ∨ (c.sub b).truthy then
    let s1 := if (b.sub a).x = 0 then (c, b, a) else (a, b, c)
    if (s1.2.2.sub s1.1).x = 0 then (s1.2.1, s1.1, s1.2.2) else s1
  else (a, b, c)

/-- The main body of `Circumcircle._calculate` after the relabeling step,
applied to the (already relabeled) vertices: displacement vectors, unit
normals, `vertical` v-vectors, midpoints, bisector intersection, circumcenter
and circumradius.  Every division is a `pydiv` and every square root a
`pysqrt`, mirroring the Python operations that can raise.  The source
evaluates the same square-root expression once per unitary component and the
same quotient once per center component; the values are identical, so they are
bound once here. -/
def calcBody (a b c : Coordinate) : Except PyErr (Coordinate × ℝ) := do
  -- Segment displacement:
  let dab : Coordinate := ⟨b.x - a.x, b.y - a.y⟩
  let dac : Coordinate := ⟨c.x - a.x, c.y - a.y⟩
  -- Unitary vectors: (dy / L, -dx / L) with L the segment length:
  let lab ← pysqrt (dab.x ^ 2 + dab.y ^ 2)
  let lac ← pysqrt (dac.x ^ 2 + dac.y ^ 2)
  let uabx ← pydiv dab.y lab
  let uaby ← pydiv (-dab.x) lab
  let uacx ← pydiv dac.y lac
  let uacy ← pydiv (-dac.x) lac
  -- V-vectors for vertical intersection: (uab.x / uab.y, 1), (-(uac.x / uac.y), 1):
  let vabx ← pydiv uabx uaby
  let vacq ← pydiv uacx uacy
  let vacx := -vacq
  -- Midpoint setting (division by the literal 2 cannot raise):
  let mab : Coordinate := ⟨dab.x / 2 + a.x, dab.y / 2 + a.y⟩
  let mac : Coordinate := ⟨dac.x / 2 + a.x, dac.y / 2 + a.y⟩
  -- Midpoint height equivalence:
  let q ← pydiv (mac.y - mab.y) uaby
  let ix := mab.x + q * uabx
  let iy := mac.y
  -- Circumcenter calculation:
  let r ← pydiv (mac.x - ix) (vabx + vacx)
  let cx := ix + r * vabx
  let cy := iy + r
  -- Circumradius calculation:
  let rad ← pysqrt ((a.x - cx) ^ 2 + (a.y - cy) ^ 2)
  return (⟨cx, cy⟩, rad)

/-- The instance fields written by `Circumcircle._calculate`: the (possibly
relabeled) vertices `_a`, `_b`, `_c` together with `_center` and `_radius`. -/
structure CircumState where
  a : Coordinate
  b : Coordinate
  c : Coordinate
  center : Coordinate
  radius : ℝ

/-- Model of `Circumcircle._calculate` (with `_ensure_non_collinear`): first raise
`ValueError` when the signed area is exactly zero, then relabel the vertices,
then run the numeric body on the relabeled vertices (the body reads the
vertices through `self.a`, `self.b`, `self.c`, i.e. the post-swap fields). -/
def calculate (a b c : Coordinate) : Except PyErr CircumState := do
  if signedArea a b c = 0 then throw .valueError
  let s := applySwaps a b c
  let p ← calcBody s.1 s.2.1 s.2.2
  return ⟨s.1, s.2.1, s.2.2, p.1, p.2⟩

/-- A `Circumcircle` instance: the `_initial_setting` flag plus vertex and
result fields. -/
structure Circum where
  initialSetting : Bool
  a : Coordinate
  b : Coordinate
  c : Coordinate
  center : Coordinate
  radius : ℝ

/-- Model of `Circumcircle.__init__`: the vertices are stored directly (bypassing the
property setters), `_initial_setting` ends up `True` before `_calculate`
runs, and the initial `_calculate` fills center and radius. -/
def circumInit (a b c : Coordinate) : Except PyErr Circum := do
  let st ← calculate a b c
  return ⟨true, st.a, st.b, st.c, st.center, st.radius⟩

/-- Re-running `_calculate` on the current vertices of an instance (the path
taken by a vertex setter when `_initial_setting` is false). -/
def circumRecalc (o : Circum) : Except PyErr Circum := do
  let st ← calculate o.a o.b o.c
  return ⟨o.initialSetting, st.a, st.b, st.c, st.center, st.radius⟩

/-- The `Circumcircle.a` setter: the `isinstance` check always passes for a
`Coordinate` argument; the new vertex is stored, and `_calculate` runs only
when `_initial_setting` is false. -/
def setVertexA (o : Circum) (v : Coordinate) : Except PyErr Circum :=
  let o1 := { o with a := v }
  if o1.initialSetting then .ok o1 else circumRecalc o1

/-- The `Circumcircle.b` setter (same structure as the `a` setter). -/
def setVertexB (o : Circum) (v : Coordinate) : Except PyErr Circum :=
  let o1 := { o with b := v }
  if o1.initialSetting then .ok o1 else circumRecalc o1

/-- The `Circumcircle.c` setter (same structure as the `a` setter). -/
def setVertexC (o : Circum) (v : Coordinate) : Except PyErr Circum :=
  let o1 := { o with c := v }
  if o1.initialSetting then .ok o1 else circumRecalc o1

/-- Closed form of the circumcenter produced by the success path of
`calcBody` (same sequence of arithmetic, with plain real division). -/
def centerF (a b c : Coordinate) : Coordinate :=
  let dab : Coordinate := ⟨b.x - a.x, b.y - a.y⟩
  let dac : Coordinate := ⟨c.x - a.x, c.y - a.y⟩
  let lab := Real.sqrt (dab.x ^ 2 + dab.y ^ 2)
  let lac := Real.sqrt (dac.x ^ 2 + dac.y ^ 2)
  let uabx := dab.y / lab
  let uaby := -dab.x / lab
  let uacx := dac.y / lac
  let uacy := -dac.x / lac
  let vabx := uabx / uaby
  let vacx := -(uacx / uacy)
  let mab : Coordinate := ⟨dab.x / 2 + a.x, dab.y / 2 + a.y⟩
  let mac : Coordinate := ⟨dac.x / 2 + a.x, dac.y / 2 + a.y⟩
  let ix := mab.x + (mac.y - mab.y) / uaby * uabx
  let iy := mac.y
  let r := (mac.x - ix) / (vabx + vacx)
  ⟨ix + r * vabx, iy + r⟩

/-- Closed form of the circumradius produced by the success path of
`calcBody`: distance from the (relabeled) first vertex to the center. -/
def radiusF (a b c : Coordinate) : ℝ :=
  Real.sqrt ((a.x - (centerF a b c).x) ^ 2 + (a.y - (centerF a b c).y) ^ 2)

/-- The loop of `bisect.bisect_right` from the Python standard library:
`while lo < hi: mid = (lo + hi) // 2; if x < a[mid]: hi = mid else:
lo = mid + 1`, returning `lo`. -/
def bisectLoop (l : List ℝ) (t : ℝ) (lo hi : ℕ) : ℕ :=
  if lo < hi then
    if t < l.getD ((lo + hi) / 2) 0 then bisectLoop l t lo ((lo + hi) / 2)
    else bisectLoop l t ((lo + hi) / 2 + 1) hi
  else lo
termination_by hi - lo
decreasing_by
  all_goals omega

/-- Model of `bisect.bisect(a, x)` with the default bounds `lo = 0`, `hi = len(a)`,
as called by `_UnidimensionalSpline.__search_index`. -/
def pybisect (l : List ℝ) (t : ℝ) : ℕ :=
  bisectLoop l t 0 l.length

/-- Python / numpy scalar indexing of a 1-D array with a possibly negative
integer index: nonnegative indices must be below the length, negative indices
wrap once from the end, anything else raises `IndexError`. -/
def pyGet (l : List ℝ) (i : ℤ) : Except PyErr ℝ :=
  if 0 ≤ i ∧ i < (l.length : ℤ) then .ok (l.getD i.toNat 0)
  else if -(l.length : ℤ) ≤ i ∧ i < 0 then .ok (l.getD (l.length - (-i).toNat) 0)
  else .error .indexError

/-- Model of `np.diff`: consecutive differences of a list. -/
def diffs (l : List ℝ) : List ℝ :=
  l.zipWith (fun u v => v - u) l.tail

/-- A `_UnidimensionalSpline` instance after `__init__`: the knot array
`self.x`, the value array `self.y`, and the four coefficient arrays
`self.a`, `self.b`, `self.c`, `self.d` (each of length `len(x) - 1` after the
final trims `self.b = self.b[:-1]`, `self.d = self.d[:-1]`).  The write-only
`self.pos` cache is omitted: it never influences any returned value. -/
structure USpline where
  xs : List ℝ
  ys : List ℝ
  a : List ℝ
  b : List ℝ
  c : List ℝ
  d : List ℝ

/-- Net result of the array fill performed by
`_UnidimensionalSpline.__calc_matrix_a` for `n = len(x) ≥ 2`, with
`h = np.diff(x)`: row `0` is `e_0`, row `n-1` is `e_(n-1)` (their off-diagonal
writes are zeroed at the end of the method), and every interior row `i` holds
`h[i-1]` on the subdiagonal, `2*(h[i-1] + h[i])` on the diagonal and `h[i]` on
the superdiagonal. -/
def matrixA (h : List ℝ) (n : ℕ) : Matrix (Fin n) (Fin n) ℝ :=
  Matrix.of fun i j =>
    if i.val = 0 then (if j.val = 0 then 1 else 0)
    else if i.val = n - 1 then (if j.val = n - 1 then 1 else 0)
    else if j.val + 1 = i.val then h.getD (i.val - 1) 0
    else if j.val = i.val then 2 * (h.getD (i.val - 1) 0 + h.getD i.val 0)
    else if j.val = i.val + 1 then h.getD i.val 0
    else 0

/-- Net result of `_UnidimensionalSpline.__calc_matrix_b` with `d = self.d`
(the value array) and `h = np.diff(x)`: entry `j` for `1 ≤ j ≤ n-2` is
`3*(d[j+1] - d[j])/h[j] - 3*(d[j] - d[j-1])/h[j-1]`, all other entries are
zero. -/
def rhsVec (h d : List ℝ) (n : ℕ) : Fin n → ℝ := fun i =>
  if 1 ≤ i.val ∧ i.val ≤ n - 2 then
    3 * (d.getD (i.val + 1) 0 - d.getD i.val 0) / h.getD i.val 0
      - 3 * (d.getD i.val 0 - d.getD (i.val - 1) 0) / h.getD (i.val - 1) 0
  else 0

/-- Model of `np.linalg.solve`: returns the exact solution of `A · x = v` when `A` is
invertible and raises `LinAlgError` on a singular matrix. -/
def npSolve {n : ℕ} (A : Matrix (Fin n) (Fin n) ℝ) (v : Fin n → ℝ) :
    Except PyErr (Fin n → ℝ) :=
  if IsUnit A.det then .ok (A⁻¹.mulVec v) else .error .linAlgError

/-- Model of `_UnidimensionalSpline.__init__`: shape check, the `b` coefficients from
the linear solve, then the vectorized derivations
`c = d_diff/h - h*(b[1:] + 2*b[:-1])/3`, `a = b_diff/(3*h)`, and the final
trims of `b` and `d`.  For fewer than two knots the constant writes in
`__calc_matrix_a` (`matrix[0, 1] = 0.0`, `matrix[n-1, n-2] = 0.0`) address
out-of-range entries and numpy raises `IndexError`. -/
def usplineInit (x y : List ℝ) : Except PyErr USpline :=
  if x.length ≠ y.length then .error .valueError
  else if x.length < 2 then .error .indexError
  else do
    let n := x.length
    let h := diffs x
    let bf ← npSolve (matrixA h n) (rhsVec h y n)
    let bFull := List.ofFn bf
    let c := (List.range (n - 1)).map fun i =>
      (y.getD (i + 1) 0 - y.getD i 0) / h.getD i 0
        - h.getD i 0 * (bFull.getD (i + 1) 0 + 2 * bFull.getD i 0) / 3
    let a := (List.range (n - 1)).map fun i =>
      (bFull.getD (i + 1) 0 - bFull.getD i 0) / (3 * h.getD i 0)
    return ⟨x, y, a, bFull.take (n - 1), c, y.take (n - 1)⟩

/-- Model of `_UnidimensionalSpline.position`: `None` outside `[x[0], x[-1]]`,
otherwise `a[i]*dx**3 + b[i]*dx**2 + c[i]*dx + d[i]` at the
`__search_index` segment (instances built by `__init__` always have at least
two knots, so the `x[0]` / `x[-1]` reads themselves cannot fail). -/
def USpline.position (s : USpline) (t : ℝ) : Except PyErr (Option ℝ) :=
  if ¬(s.xs.getD 0 0 ≤ t ∧ t ≤ s.xs.getD (s.xs.length - 1) 0) then .ok none
  else do
    let i : ℤ := (pybisect s.xs t : ℤ) - 1
    let xi ← pyGet s.xs i
    let dx := t - xi
    let ai ← pyGet s.a i
    let bi ← pyGet s.b i
    let ci ← pyGet s.c i
    let di ← pyGet s.d i
    return some (ai * dx ^ 3 + bi * dx ^ 2 + ci * dx + di)

/-- Model of `_UnidimensionalSpline.first_derivative`:
`3*a[i]*dx**2 + 2*b[i]*dx + c[i]` with the same range and index logic. -/
def USpline.firstDerivative (s : USpline) (t : ℝ) : Except PyErr (Option ℝ) :=
  if ¬(s.xs.getD 0 0 ≤ t ∧ t ≤ s.xs.getD (s.xs.length - 1) 0) then .ok none
  else do
    let i : ℤ := (pybisect s.xs t : ℤ) - 1
    let xi ← pyGet s.xs i
    let dx := t - xi
    let ai ← pyGet s.a i
    let bi ← pyGet s.b i
    let ci ← pyGet s.c i
    return some (3 * ai * dx ^ 2 + 2 * bi * dx + ci)

/-- Model of `_UnidimensionalSpline.second_derivative`: `6*a[i]*dx + 2*b[i]` with the
same range and index logic. -/
def USpline.secondDerivative (s : USpline) (t : ℝ) : Except PyErr (Option ℝ) :=
  if ¬(s.xs.getD 0 0 ≤ t ∧ t ≤ s.xs.getD (s.xs.length - 1) 0) then .ok none
  else do
    let i : ℤ := (pybisect s.xs t : ℤ) - 1
    let xi ← pyGet s.xs i
    let dx := t - xi
    let ai ← pyGet s.a i
    let bi ← pyGet s.b i
    return some (6 * ai * dx + 2 * bi)

/-- Model of `np.arange(start, stop, step)`: `max(0, ceil((stop - start) / step))`
evenly spaced values `start + k * step`. -/
def npArange (start stop step : ℝ) : List ℝ :=
  (List.range ⌈(stop - start) / step⌉₊).map fun k : ℕ => start + (k : ℝ) * step

/-- Model of `Spline._compute_knots`: `np.concatenate((np.zeros(1),
np.cumsum(np.hypot(np.diff(x), np.diff(y)))))` — cumulative arc length,
starting at 0. -/
def computeKnots (x y : List ℝ) : List ℝ :=
  List.scanl (fun acc d => acc + d) 0
    ((diffs x).zipWith (fun dx dy => Real.sqrt (dx ^ 2 + dy ^ 2)) (diffs y))

/-- Model of `math.atan2(y, x)`: the argument of the point `(x, y)`, in `(-π, π]`. -/
def pyAtan2 (y x : ℝ) : ℝ :=
  Complex.arg ⟨x, y⟩

/-- Model of `Spline._compute_curvature`: the four derivative queries in source order,
then `(dy2 * dx1 - dx2 * dy1) / math.sqrt(dx1**2 + dy1**2)`.  A `None`
derivative (out-of-range query) raises `TypeError` in the arithmetic. -/
def computeCurvatureAt (sx sy : USpline) (t : ℝ) : Except PyErr ℝ := do
  let dx1 ← sx.firstDerivative t
  let dx2 ← sx.secondDerivative t
  let dy1 ← sy.firstDerivative t
  let dy2 ← sy.secondDerivative t
  match dx1, dx2, dy1, dy2 with
  | some x1, some x2, some y1, some y2 => do
    let sq ← pysqrt (x1 ^ 2 + y1 ^ 2)
    pydiv (y2 * x1 - x2 * y1) sq
  | _, _, _, _ => throw .typeError

/-- Model of `Spline._compute_yaw`: atan2 of the two first derivatives (y
spline first, then x spline); a `None` derivative raises `TypeError` inside
`atan2`. -/
def computeYawAt (sx sy : USpline) (t : ℝ) : Except PyErr ℝ := do
  let dy1 ← sy.firstDerivative t
  let dx1 ← sx.firstDerivative t
  match dy1, dx1 with
  | some y1, some x1 => return pyAtan2 y1 x1
  | _, _ => throw .typeError

/-- Model of `Spline._compute_results`: the sample grid
`np.arange(knots[0], knots[-1], step)`, one `(position, curvature, yaw)`
triple per grid point, split into the three result arrays.
`Coordinate(*self._compute_position(i))` with a `None` component fails the
isinstance check in the `Coordinate` setters (TypeError), and slicing
`data[:, k]` out of the `np.array` of an empty comprehension raises
`IndexError`. -/
def resultTriple (sx sy : USpline) (t : ℝ) :
    Except PyErr (Coordinate × ℝ × ℝ) := do
  let px ← sx.position t
  let py ← sy.position t
  let pos ← match px, py with
    | some vx, some vy => pure (⟨vx, vy⟩ : Coordinate)
    | _, _ => throw PyErr.typeError
  let curv ← computeCurvatureAt sx sy t
  let yw ← computeYawAt sx sy t
  return (pos, curv, yw)

def computeResults (knots : List ℝ) (sx sy : USpline) (step : ℝ) :
    Except PyErr (List Coordinate × List ℝ × List ℝ) := do
  let grid := npArange (knots.getD 0 0) (knots.getD (knots.length - 1) 0) step
  let items ← grid.mapM (resultTriple sx sy)
  if items.length = 0 then throw .indexError
  return (items.map Prod.fst, items.map (fun p => p.2.1), items.map (fun p => p.2.2))

/-- A `Spline` instance after `__init__`: raw coordinate lists, knots, the two
fitted unidimensional splines, the generation step and the three eagerly
computed result arrays. -/
structure SplineS where
  x : List ℝ
  y : List ℝ
  knots : List ℝ
  splineX : USpline
  splineY : USpline
  generationStep : ℝ
  positions : List Coordinate
  curvature : List ℝ
  yaw : List ℝ

/-- Model of `Spline.__init__`: project the coordinates, check the (always equal)
lengths, compute knots, fit the two unidimensional splines, store the
generation step directly (without the setter validation), and eagerly compute
the results.  There is no point-count and no step validation here. -/
def splineInit (coords : List Coordinate) (genStep : ℝ) : Except PyErr SplineS := do
  let x := coords.map Coordinate.x
  let y := coords.map Coordinate.y
  if x.length ≠ y.length then throw .valueError
  let knots := computeKnots x y
  let sx ← usplineInit knots x
  let sy ← usplineInit knots y
  let res ← computeResults knots sx sy genStep
  return ⟨x, y, knots, sx, sy, genStep, res.1, res.2.1, res.2.2⟩

/-- The `Spline.x` setter: for a list of numbers the isinstance checks pass
and only the raw `_x` field is replaced; nothing is recomputed. -/
def setSplineX (s : SplineS) (v : List ℝ) : SplineS :=
  { s with x := v }

/-- The `Spline.y` setter: for a list of numbers the isinstance checks pass
and only the raw `_y` field is replaced; nothing is recomputed. -/
def setSplineY (s : SplineS) (v : List ℝ) : SplineS :=
  { s with y := v }

/-- The `Spline.generation_step` setter: a number passes the isinstance check,
then `value <= 0` raises `ValueError`; otherwise only the step is replaced. -/
def setGenerationStep (s : SplineS) (v : ℝ) : Except PyErr SplineS :=
  if v ≤ 0 then .error .valueError else .ok { s with generationStep := v }

/-- Concrete `Circumcircle` instance produced by construction from the
vertices (0,0), (3,4), (4,-3) (test fixture). -/
def circObj : Circum :=
  ⟨true, ⟨0, 0⟩, ⟨3, 4⟩, ⟨4, -3⟩, ⟨7 / 2, 1 / 2⟩, Real.sqrt (25 / 2)⟩

/-- Concrete `_UnidimensionalSpline` fitted to knots [0, 5] and values
[0, 3] (test fixture). -/
def ux2 : USpline := ⟨[0, 5], [0, 3], [0], [0], [3 / 5], [0]⟩

/-- Concrete `_UnidimensionalSpline` fitted to knots [0, 5] and values
[0, 4] (test fixture). -/
def uy2 : USpline := ⟨[0, 5], [0, 4], [0], [0], [4 / 5], [0]⟩

/-- Concrete `Spline` built from the two points (0,0), (3,4) with generation
step 2 (test fixture). -/
def s2 : SplineS :=
  ⟨[0, 3], [0, 4], [0, 5], ux2, uy2, 2,
   [⟨0, 0⟩, ⟨6 / 5, 8 / 5⟩, ⟨12 / 5, 16 / 5⟩], [0, 0, 0],
   [pyAtan2 (4 / 5) (3 / 5), pyAtan2 (4 / 5) (3 / 5), pyAtan2 (4 / 5) (3 / 5)]⟩

/-- Concrete `_UnidimensionalSpline` fitted to knots [0, 5, 10] and values
[0, 3, 6] (test fixture). -/
def ux3 : USpline :=
  ⟨[0, 5, 10], [0, 3, 6], [0, 0], [0, 0], [3 / 5, 3 / 5], [0, 3]⟩

/-- Concrete `_UnidimensionalSpline` fitted to knots [0, 5, 10] and values
[0, 4, 0] (test fixture). -/
def uy3 : USpline :=
  ⟨[0, 5, 10], [0, 4, 0], [-2 / 125, 2 / 125], [0, -6 / 25], [6 / 5, 0],
   [0, 4]⟩

/-- Concrete `Spline` built from the three points (0,0), (3,4), (6,0) with
generation step 4 (test fixture). -/
def sCurve : SplineS :=
  ⟨[0, 3, 6], [0, 4, 0], [0, 5, 10], ux3, uy3, 4,
   [⟨0, 0⟩, ⟨12 / 5, 472 / 125⟩, ⟨24 / 5, 284 / 125⟩],
   [0, -144 / 625 / Real.sqrt (8541 / 15625),
    -72 / 625 / Real.sqrt (21501 / 15625)],
   [pyAtan2 (6 / 5) (3 / 5), pyAtan2 (54 / 125) (3 / 5),
    pyAtan2 (-126 / 125) (3 / 5)]⟩

/-- Modelled from the spec: the signed curvature of a parametric curve,
`(y2*x1 - x2*y1) / (x1^2 + y1^2)^1.5`, as the specification states it
(`Spline._compute_curvature` in the source divides by the 0.5 power
instead). -/
def specCurvature (x1 y1 x2 y2 : ℝ) : ℝ :=
  (y2 * x1 - x2 * y1) / (x1 ^ 2 + y1 ^ 2) ^ (3 / 2 : ℝ)

end

theorem ok_bind {α β : Type} (a : α) (f : α → Except PyErr β) :
    (Except.ok a >>= f : Except PyErr β) = f a := rfl

theorem calcBody_ok (a b c : Coordinate) (h1 : b.x - a.x ≠ 0) (h2 : c.x - a.x ≠ 0)
    (hc : signedArea a b c ≠ 0) :
    calcBody a b c = .ok (centerF a b c, radiusF a b c) := by
  have hs1 : ¬((b.x - a.x) ^ 2 + (b.y - a.y) ^ 2 < 0) := not_lt.mpr (by positivity)
  have hs2 : ¬((c.x - a.x) ^ 2 + (c.y - a.y) ^ 2 < 0) := not_lt.mpr (by positivity)
  have hl1 : Real.sqrt ((b.x - a.x) ^ 2 + (b.y - a.y) ^ 2) ≠ 0 := by
    rw [Real.sqrt_ne_zero']
    positivity
  have hl2 : Real.sqrt ((c.x - a.x) ^ 2 + (c.y - a.y) ^ 2) ≠ 0 := by
    rw [Real.sqrt_ne_zero']
    positivity
  have huaby : -(b.x - a.x) / Real.sqrt ((b.x - a.x) ^ 2 + (b.y - a.y) ^ 2) ≠ 0 :=
    div_ne_zero (neg_ne_zero.mpr h1) hl1
  have huacy : -(c.x - a.x) / Real.sqrt ((c.x - a.x) ^ 2 + (c.y - a.y) ^ 2) ≠ 0 :=
    div_ne_zero (neg_ne_zero.mpr h2) hl2
  have hden : (b.y - a.y) / Real.sqrt ((b.x - a.x) ^ 2 + (b.y - a.y) ^ 2) /
        (-(b.x - a.x) / Real.sqrt ((b.x - a.x) ^ 2 + (b.y - a.y) ^ 2)) +
        -((c.y - a.y) / Real.sqrt ((c.x - a.x) ^ 2 + (c.y - a.y) ^ 2) /
          (-(c.x - a.x) / Real.sqrt ((c.x - a.x) ^ 2 + (c.y - a.y) ^ 2))) ≠ 0 := by
    have key : (b.y - a.y) / Real.sqrt ((b.x - a.x) ^ 2 + (b.y - a.y) ^ 2) /
        (-(b.x - a.x) / Real.sqrt ((b.x - a.x) ^ 2 + (b.y - a.y) ^ 2)) +
        -((c.y - a.y) / Real.sqrt ((c.x - a.x) ^ 2 + (c.y - a.y) ^ 2) /
          (-(c.x - a.x) / Real.sqrt ((c.x - a.x) ^ 2 + (c.y - a.y) ^ 2))) =
        signedArea a b c / ((b.x - a.x) * (c.x - a.x)) := by
      have h1b : a.x - b.x ≠ 0 := fun hz => h1 (by linarith [sub_eq_zero.mp hz])
      have h2b : a.x - c.x ≠ 0 := fun hz => h2 (by linarith [sub_eq_zero.mp hz])
      rw [signedArea]
      field_simp
      ring
    rw [key]
    exact div_ne_zero hc (mul_ne_zero h1 h2)
  have hs3 : ¬((a.x - (centerF a b c).x) ^ 2 + (a.y - (centerF a b c).y) ^ 2 < 0) :=
    not_lt.mpr (by positivity)
  simp only [centerF] at hs3
  simp only [calcBody, pysqrt, pydiv, centerF, radiusF, if_neg hs1, if_neg hs2,
    if_neg hl1, if_neg hl2, if_neg huaby, if_neg huacy, if_neg hden, if_neg hs3,
    ok_bind]
  rfl

set_option maxHeartbeats 2000000 in
theorem centerF_eq (a b c : Coordinate) (h1 : b.x - a.x ≠ 0) (h2 : c.x - a.x ≠ 0)
    (hc : signedArea a b c ≠ 0) :
    centerF a b c =
      ⟨a.x + ((c.y - a.y) * ((b.x - a.x) ^ 2 + (b.y - a.y) ^ 2)
          - (b.y - a.y) * ((c.x - a.x) ^ 2 + (c.y - a.y) ^ 2)) / (2 * signedArea a b c),
       a.y + ((b.x - a.x) * ((c.x - a.x) ^ 2 + (c.y - a.y) ^ 2)
          - (c.x - a.x) * ((b.x - a.x) ^ 2 + (b.y - a.y) ^ 2)) / (2 * signedArea a b c)⟩ := by
  have hL1 : Real.sqrt ((b.x - a.x) ^ 2 + (b.y - a.y) ^ 2) ≠ 0 := by
    rw [Real.sqrt_ne_zero']
    positivity
  have hL2 : Real.sqrt ((c.x - a.x) ^ 2 + (c.y - a.y) ^ 2) ≠ 0 := by
    rw [Real.sqrt_ne_zero']
    positivity
  have hcs : signedArea a b c ≠ 0 := hc
  simp only [signedArea] at hcs
  simp only [centerF, signedArea, Coordinate.mk.injEq]
  generalize hg1 : Real.sqrt ((b.x - a.x) ^ 2 + (b.y - a.y) ^ 2) = L1 at hL1 ⊢
  generalize hg2 : Real.sqrt ((c.x - a.x) ^ 2 + (c.y - a.y) ^ 2) = L2 at hL2 ⊢
  have huaby : -(b.x - a.x) / L1 ≠ 0 := div_ne_zero (neg_ne_zero.mpr h1) hL1
  have huacy : -(c.x - a.x) / L2 ≠ 0 := div_ne_zero (neg_ne_zero.mpr h2) hL2
  have h1b : a.x - b.x ≠ 0 := fun hz => h1 (by linarith [sub_eq_zero.mp hz])
  have h2b : a.x - c.x ≠ 0 := fun hz => h2 (by linarith [sub_eq_zero.mp hz])
  have e2 : (b.y - a.y) / L1 / (-(b.x - a.x) / L1) = -((b.y - a.y) / (b.x - a.x)) := by
    field_simp
    ring
  have e3 : (c.y - a.y) / L2 / (-(c.x - a.x) / L2) = -((c.y - a.y) / (c.x - a.x)) := by
    field_simp
    ring
  have e1 : ∀ d : ℝ, d / (-(b.x - a.x) / L1) * ((b.y - a.y) / L1) =
      -(d * (b.y - a.y) / (b.x - a.x)) := by
    intro d
    field_simp
    ring
  rw [e1, e2, e3]
  have hSeq : -((b.y - a.y) / (b.x - a.x)) + - -((c.y - a.y) / (c.x - a.x)) =
      (a.x * (b.y - c.y) + b.x * (c.y - a.y) + c.x * (a.y - b.y))
        / ((b.x - a.x) * (c.x - a.x)) := by
    field_simp
    ring
  rw [hSeq]
  simp only [div_div_eq_mul_div]
  constructor
  · field_simp
    ring
  · field_simp
    ring

theorem signedArea_cba (a b c : Coordinate) : signedArea c b a = -signedArea a b c := by
  simp only [signedArea]
  ring

theorem signedArea_bac (a b c : Coordinate) : signedArea b a c = -signedArea a b c := by
  simp only [signedArea]
  ring

theorem centerF_dist2 (a b c : Coordinate) (h1 : b.x - a.x ≠ 0) (h2 : c.x - a.x ≠ 0)
    (hc : signedArea a b c ≠ 0) :
    (((centerF a b c).x - b.x) ^ 2 + ((centerF a b c).y - b.y) ^ 2 =
      ((centerF a b c).x - a.x) ^ 2 + ((centerF a b c).y - a.y) ^ 2) ∧
    (((centerF a b c).x - c.x) ^ 2 + ((centerF a b c).y - c.y) ^ 2 =
      ((centerF a b c).x - a.x) ^ 2 + ((centerF a b c).y - a.y) ^ 2) := by
  have hcs : signedArea a b c ≠ 0 := hc
  rw [centerF_eq a b c h1 h2 hc]
  simp only [signedArea] at hcs ⊢
  constructor
  · field_simp
    ring
  · field_simp
    ring

theorem applySwaps_spec (a b c : Coordinate) (hc : signedArea a b c ≠ 0) :
    ∃ p q r : Coordinate, applySwaps a b c = (p, q, r) ∧
      (q.x - p.x ≠ 0) ∧ (r.x - p.x ≠ 0) ∧ signedArea p q r ≠ 0 ∧
      ((p = a ∧ q = b ∧ r = c) ∨ (p = c ∧ q = b ∧ r = a) ∨ (p = b ∧ q = a ∧ r = c)) := by
  have hguard : (b.sub a).truthy ∨ (c.sub a).truthy ∨ (c.sub b).truthy := by
    left
    by_contra h
    simp only [Coordinate.truthy, Coordinate.sub, not_or, not_not] at h
    apply hc
    rw [signedArea]
    have hx : b.x = a.x := by linarith [h.1]
    have hy : b.y = a.y := by linarith [h.2]
    rw [hx, hy]
    ring
  by_cases hba : (b.sub a).x = 0
  · -- first swap fires: a and c exchange
    have hbax : b.x - a.x = 0 := hba
    have hcax : a.x - c.x ≠ 0 := by
      intro hz
      apply hc
      rw [signedArea]
      have h1 : b.x = a.x := by linarith
      have h2 : c.x = a.x := by linarith
      rw [h1, h2]
      ring
    refine ⟨c, b, a, ?_, ?_, ?_, ?_, ?_⟩
    · rw [applySwaps, if_pos hguard, if_pos hba]
      simp only [Coordinate.sub]
      rw [if_neg ?_]
      intro hz
      exact hcax (by linarith [hz])
    · intro hz
      exact hcax (by linarith [hbax, hz])
    · intro hz
      exact hcax (by linarith [hz])
    · rw [signedArea_cba]
      exact neg_ne_zero.mpr hc
    · right
      left
      exact ⟨rfl, rfl, rfl⟩
  · by_cases hca : (c.sub a).x = 0
    · -- second swap fires: a and b exchange
      have hcax : c.x - a.x = 0 := hca
      have hbax : b.x - a.x ≠ 0 := hba
      refine ⟨b, a, c, ?_, ?_, ?_, ?_, ?_⟩
      · rw [applySwaps, if_pos hguard, if_neg hba]
        simp only
        rw [if_pos hca]
      · intro hz
        exact hbax (by linarith [hz])
      · intro hz
        apply hbax
        linarith [hz, hcax]
      · rw [signedArea_bac]
        exact neg_ne_zero.mpr hc
      · right
        right
        exact ⟨rfl, rfl, rfl⟩
    · refine ⟨a, b, c, ?_, hba, hca, hc, Or.inl ⟨rfl, rfl, rfl⟩⟩
      rw [applySwaps, if_pos hguard, if_neg hba]
      rw [if_neg hca]

theorem error_bind {α β : Type} (e : PyErr) (f : α → Except PyErr β) :
    (Except.error e >>= f : Except PyErr β) = Except.error e := rfl

theorem calculate_ok (a b c : Coordinate) (hc : signedArea a b c ≠ 0) :
    ∃ p q r : Coordinate,
      calculate a b c = .ok ⟨p, q, r, centerF p q r, radiusF p q r⟩ ∧
      (q.x - p.x ≠ 0) ∧ (r.x - p.x ≠ 0) ∧ signedArea p q r ≠ 0 ∧
      ((p = a ∧ q = b ∧ r = c) ∨ (p = c ∧ q = b ∧ r = a) ∨ (p = b ∧ q = a ∧ r = c)) := by
  obtain ⟨p, q, r, hswap, h1, h2, hpqr, hperm⟩ := applySwaps_spec a b c hc
  refine ⟨p, q, r, ?_, h1, h2, hpqr, hperm⟩
  rw [calculate]
  simp only [if_neg hc, hswap, ok_bind, calcBody_ok p q r h1 h2 hpqr]
  rfl

theorem distance_radiusF (p q r : Coordinate) :
    distance (centerF p q r) p = radiusF p q r := by
  rw [distance, radiusF]
  congr 1
  ring

/-- C1: for every non-collinear triple a, b, c (nonzero signed area), the
circle computed by `Circumcircle._calculate` is equidistant from all three
inputs: the distance from the stored center to each of a, b and c equals the
stored radius, exactly over the reals. -/
theorem circumcircle_equidistant (a b c : Coordinate) (hc : signedArea a b c ≠ 0)
    (st : CircumState) (hok : calculate a b c = .ok st) :
    distance st.center a = st.radius ∧ distance st.center b = st.radius ∧
      distance st.center c = st.radius := by
  obtain ⟨p, q, r, hcalc, h1, h2, hpqr, hperm⟩ := calculate_ok a b c hc
  rw [hok] at hcalc
  have hst : st = ⟨p, q, r, centerF p q r, radiusF p q r⟩ := Except.ok.inj hcalc
  subst hst
  obtain ⟨hdq, hdr⟩ := centerF_dist2 p q r h1 h2 hpqr
  have hrp : distance (centerF p q r) p = radiusF p q r := distance_radiusF p q r
  have hrq : distance (centerF p q r) q = radiusF p q r := by
    rw [distance, hdq, ← distance, distance_radiusF]
  have hrr : distance (centerF p q r) r = radiusF p q r := by
    rw [distance, hdr, ← distance, distance_radiusF]
  rcases hperm with ⟨ha, hb, hc2⟩ | ⟨ha, hb, hc2⟩ | ⟨ha, hb, hc2⟩
  · subst ha
    subst hb
    subst hc2
    exact ⟨hrp, hrq, hrr⟩
  · subst ha
    subst hb
    subst hc2
    exact ⟨hrr, hrq, hrp⟩
  · subst ha
    subst hb
    subst hc2
    exact ⟨hrq, hrp, hrr⟩

/-- C6: for every triple of distinct points, `Circumcircle._calculate`
raises the degenerate-triangle ValueError exactly when the signed area is
exactly zero (no epsilon tolerance); when the signed area is nonzero it
raises no error and produces a circle. -/
theorem collinear_iff_error (a b c : Coordinate) (_hab : a ≠ b) (_hac : a ≠ c)
    (_hbc : b ≠ c) :
    (calculate a b c = .error .valueError ↔ signedArea a b c = 0) ∧
    (signedArea a b c ≠ 0 → ∃ st, calculate a b c = .ok st) := by
  constructor
  · constructor
    · intro herr
      by_contra hne
      obtain ⟨p, q, r, hcalc, _, _, _, _⟩ := calculate_ok a b c hne
      rw [hcalc] at herr
      exact Except.noConfusion herr
    · intro hz
      rw [calculate]
      simp only [if_pos hz]
      rfl
  · intro hne
    obtain ⟨p, q, r, hcalc, _, _, _, _⟩ := calculate_ok a b c hne
    exact ⟨_, hcalc⟩

theorem applySwaps_noswap (a b c : Coordinate) (hba : (b.sub a).x ≠ 0)
    (hca : (c.sub a).x ≠ 0) :
    applySwaps a b c = (a, b, c) := by
  have hg : (b.sub a).truthy ∨ (c.sub a).truthy ∨ (c.sub b).truthy :=
    Or.inl (Or.inl hba)
  rw [applySwaps, if_pos hg, if_neg hba, if_neg hca]

theorem calculate_noswap (a b c : Coordinate) (hba : b.x - a.x ≠ 0)
    (hca : c.x - a.x ≠ 0) (hc : signedArea a b c ≠ 0) :
    calculate a b c = .ok ⟨a, b, c, centerF a b c, radiusF a b c⟩ := by
  have hba2 : (b.sub a).x ≠ 0 := by
    simpa [Coordinate.sub] using hba
  have hca2 : (c.sub a).x ≠ 0 := by
    simpa [Coordinate.sub] using hca
  rw [calculate]
  simp only [if_neg hc, applySwaps_noswap a b c hba2 hca2, ok_bind,
    calcBody_ok a b c hba hca hc]
  rfl

/-- C8 (amended): the internal vertex relabeling of `Circumcircle._calculate`
is persisted in the caller-visible vertices; they equal the points originally
supplied only when neither swap condition fires, i.e. when (b - a).x and
(c - a).x are both nonzero (see the counterexample for the swapped case). -/
theorem noswap_vertices_preserved (a b c : Coordinate) (hba : b.x - a.x ≠ 0)
    (hca : c.x - a.x ≠ 0) (hc : signedArea a b c ≠ 0) (st : CircumState)
    (hok : calculate a b c = .ok st) :
    st.a = a ∧ st.b = b ∧ st.c = c := by
  rw [calculate_noswap a b c hba hca hc] at hok
  have hst : st = ⟨a, b, c, centerF a b c, radiusF a b c⟩ := (Except.ok.inj hok).symm
  subst hst
  exact ⟨rfl, rfl, rfl⟩

theorem calcConcrete :
    calculate ⟨0, 0⟩ ⟨3, 4⟩ ⟨4, -3⟩ =
      .ok ⟨⟨0, 0⟩, ⟨3, 4⟩, ⟨4, -3⟩, ⟨7 / 2, 1 / 2⟩, Real.sqrt (25 / 2)⟩ := by
  have hba : (Coordinate.mk 3 4).x - (Coordinate.mk 0 0).x ≠ 0 := by norm_num
  have hca : (Coordinate.mk 4 (-3)).x - (Coordinate.mk 0 0).x ≠ 0 := by norm_num
  have hc : signedArea ⟨0, 0⟩ ⟨3, 4⟩ ⟨4, -3⟩ ≠ 0 := by norm_num [signedArea]
  have hcen : centerF ⟨0, 0⟩ ⟨3, 4⟩ ⟨4, -3⟩ = ⟨7 / 2, 1 / 2⟩ := by
    rw [centerF_eq _ _ _ hba hca hc]
    simp only [signedArea, Coordinate.mk.injEq]
    norm_num
  have hrad : radiusF ⟨0, 0⟩ ⟨3, 4⟩ ⟨4, -3⟩ = Real.sqrt (25 / 2) := by
    rw [radiusF, hcen]
    norm_num
  rw [calculate_noswap _ _ _ hba hca hc, hcen, hrad]

/-- C8 counterexample: with input a = (0,0), b = (0,8), c = (3,4) the swap
rule fires ((b - a).x = 0) and the relabeling IS exposed to the caller: after
the computation the stored vertex a is (3,4), not the originally supplied
(0,0). -/
theorem relabel_exposed_cex :
    calculate ⟨0, 0⟩ ⟨0, 8⟩ ⟨3, 4⟩ =
      .ok ⟨⟨3, 4⟩, ⟨0, 8⟩, ⟨0, 0⟩, ⟨-7 / 6, 4⟩, 25 / 6⟩ ∧
    (⟨3, 4⟩ : Coordinate) ≠ ⟨0, 0⟩ := by
  constructor
  · have hc : signedArea ⟨0, 0⟩ ⟨0, 8⟩ ⟨3, 4⟩ ≠ 0 := by norm_num [signedArea]
    have hswap : applySwaps ⟨0, 0⟩ ⟨0, 8⟩ ⟨3, 4⟩ = (⟨3, 4⟩, ⟨0, 8⟩, ⟨0, 0⟩) := by
      have hg1 : ((⟨0, 8⟩ : Coordinate).sub ⟨0, 0⟩).truthy :=
        Or.inr (by norm_num [Coordinate.sub])
      have hg : ((⟨0, 8⟩ : Coordinate).sub ⟨0, 0⟩).truthy ∨
          ((⟨3, 4⟩ : Coordinate).sub ⟨0, 0⟩).truthy ∨
          ((⟨3, 4⟩ : Coordinate).sub ⟨0, 8⟩).truthy := Or.inl hg1
      rw [applySwaps, if_pos hg,
        if_pos (show ((⟨0, 8⟩ : Coordinate).sub ⟨0, 0⟩).x = 0 by
          norm_num [Coordinate.sub]),
        if_neg (show ¬((⟨0, 0⟩ : Coordinate).sub ⟨3, 4⟩).x = 0 by
          norm_num [Coordinate.sub])]
    have h1 : (Coordinate.mk 0 8).x - (Coordinate.mk 3 4).x ≠ 0 := by norm_num
    have h2 : (Coordinate.mk 0 0).x - (Coordinate.mk 3 4).x ≠ 0 := by norm_num
    have h3 : signedArea ⟨3, 4⟩ ⟨0, 8⟩ ⟨0, 0⟩ ≠ 0 := by norm_num [signedArea]
    have hcen : centerF ⟨3, 4⟩ ⟨0, 8⟩ ⟨0, 0⟩ = ⟨-7 / 6, 4⟩ := by
      rw [centerF_eq _ _ _ h1 h2 h3]
      simp only [signedArea, Coordinate.mk.injEq]
      norm_num
    have hrad : radiusF ⟨3, 4⟩ ⟨0, 8⟩ ⟨0, 0⟩ = 25 / 6 := by
      rw [radiusF, hcen]
      norm_num
      rw [show (25 / 6 : ℝ) = Real.sqrt ((25 / 6) ^ 2) by
        rw [Real.sqrt_sq (by norm_num)]]
      norm_num
    rw [calculate]
    simp only [if_neg hc, hswap, ok_bind, calcBody_ok _ _ _ h1 h2 h3]
    rw [hcen, hrad]
    rfl
  · intro h
    have := congrArg Coordinate.x h
    norm_num at this

theorem circumInit_ok (a b c : Coordinate) (st : CircumState)
    (hcalc : calculate a b c = .ok st) :
    circumInit a b c = .ok ⟨true, st.a, st.b, st.c, st.center, st.radius⟩ := by
  rw [circumInit, hcalc, ok_bind]
  rfl

/-- C10: after `Circumcircle.__init__` succeeds, `_initial_setting` is True,
so every post-construction vertex assignment through the a, b or c setter
stores the new vertex and never triggers recalculation: center and radius
keep the values computed from the original three vertices. -/
theorem setter_no_recalc (a b c : Coordinate) (o : Circum)
    (hok : circumInit a b c = .ok o) :
    o.initialSetting = true ∧
    ∀ v : Coordinate,
      setVertexA o v = .ok { o with a := v } ∧
      setVertexB o v = .ok { o with b := v } ∧
      setVertexC o v = .ok { o with c := v } := by
  have hinit : o.initialSetting = true := by
    cases hcalc : calculate a b c with
    | error e =>
      rw [circumInit, hcalc, error_bind] at hok
      exact Except.noConfusion hok
    | ok st =>
      rw [circumInit_ok a b c st hcalc] at hok
      have := Except.ok.inj hok
      rw [← this]
  refine ⟨hinit, fun v => ⟨?_, ?_, ?_⟩⟩
  · rw [setVertexA]
    simp [hinit]
  · rw [setVertexB]
    simp [hinit]
  · rw [setVertexC]
    simp [hinit]

/-- C1 witness: the equidistance theorem applied to the concrete
non-collinear triple (0,0), (3,4), (4,-3), whose circumcircle has center
(7/2, 1/2) and radius sqrt(25/2). -/
theorem circumcircle_equidistant_witness :
    distance (⟨7 / 2, 1 / 2⟩ : Coordinate) ⟨0, 0⟩ = Real.sqrt (25 / 2) ∧
    distance (⟨7 / 2, 1 / 2⟩ : Coordinate) ⟨3, 4⟩ = Real.sqrt (25 / 2) ∧
    distance (⟨7 / 2, 1 / 2⟩ : Coordinate) ⟨4, -3⟩ = Real.sqrt (25 / 2) :=
  circumcircle_equidistant ⟨0, 0⟩ ⟨3, 4⟩ ⟨4, -3⟩ (by norm_num [signedArea])
    ⟨⟨0, 0⟩, ⟨3, 4⟩, ⟨4, -3⟩, ⟨7 / 2, 1 / 2⟩, Real.sqrt (25 / 2)⟩ calcConcrete

/-- C6 witness: the collinearity theorem applied to the concrete distinct
collinear triple (0,0), (1,1), (2,2). -/
theorem collinear_iff_error_witness :
    (calculate ⟨0, 0⟩ ⟨1, 1⟩ ⟨2, 2⟩ = .error .valueError ↔
      signedArea ⟨0, 0⟩ ⟨1, 1⟩ ⟨2, 2⟩ = 0) ∧
    (signedArea ⟨0, 0⟩ ⟨1, 1⟩ ⟨2, 2⟩ ≠ 0 →
      ∃ st, calculate ⟨0, 0⟩ ⟨1, 1⟩ ⟨2, 2⟩ = .ok st) :=
  collinear_iff_error ⟨0, 0⟩ ⟨1, 1⟩ ⟨2, 2⟩
    (by intro h; have := congrArg Coordinate.x h; norm_num at this)
    (by intro h; have := congrArg Coordinate.x h; norm_num at this)
    (by intro h; have := congrArg Coordinate.x h; norm_num at this)

/-- C8 witness: the no-swap theorem applied to the concrete triple (0,0),
(3,4), (4,-3). -/
theorem noswap_vertices_preserved_witness :
    (⟨⟨0, 0⟩, ⟨3, 4⟩, ⟨4, -3⟩, ⟨7 / 2, 1 / 2⟩,
        Real.sqrt (25 / 2)⟩ : CircumState).a = ⟨0, 0⟩ ∧
    (⟨⟨0, 0⟩, ⟨3, 4⟩, ⟨4, -3⟩, ⟨7 / 2, 1 / 2⟩,
        Real.sqrt (25 / 2)⟩ : CircumState).b = ⟨3, 4⟩ ∧
    (⟨⟨0, 0⟩, ⟨3, 4⟩, ⟨4, -3⟩, ⟨7 / 2, 1 / 2⟩,
        Real.sqrt (25 / 2)⟩ : CircumState).c = ⟨4, -3⟩ :=
  noswap_vertices_preserved ⟨0, 0⟩ ⟨3, 4⟩ ⟨4, -3⟩ (by norm_num) (by norm_num)
    (by norm_num [signedArea]) _ calcConcrete

/-- C10 witness: the setter theorem applied to the concrete instance built
from (0,0), (3,4), (4,-3), assigning the new vertex (9,9). -/
theorem setter_no_recalc_witness :
    circObj.initialSetting = true ∧
    setVertexA circObj ⟨9, 9⟩ = .ok { circObj with a := ⟨9, 9⟩ } ∧
    setVertexB circObj ⟨9, 9⟩ = .ok { circObj with b := ⟨9, 9⟩ } ∧
    setVertexC circObj ⟨9, 9⟩ = .ok { circObj with c := ⟨9, 9⟩ } := by
  have h := setter_no_recalc ⟨0, 0⟩ ⟨3, 4⟩ ⟨4, -3⟩ circObj
    (circumInit_ok ⟨0, 0⟩ ⟨3, 4⟩ ⟨4, -3⟩ _ calcConcrete)
  exact ⟨h.1, (h.2 ⟨9, 9⟩).1, (h.2 ⟨9, 9⟩).2.1, (h.2 ⟨9, 9⟩).2.2⟩

/-- C9: assigning a new coordinate list through the `Spline.x` (or
`Spline.y`) setter after construction replaces only the stored raw list and
triggers no recomputation: the knots, the two fitted unidimensional splines
(and hence their coefficient arrays), the positions, curvature and yaw arrays
and the generation step all retain their construction-time values. -/
theorem raw_setters_frame (s : SplineS) (v : List ℝ) :
    (setSplineX s v).x = v ∧ (setSplineX s v).knots = s.knots ∧
    (setSplineX s v).splineX = s.splineX ∧ (setSplineX s v).splineY = s.splineY ∧
    (setSplineX s v).positions = s.positions ∧
    (setSplineX s v).curvature = s.curvature ∧ (setSplineX s v).yaw = s.yaw ∧
    (setSplineX s v).generationStep = s.generationStep ∧
    (setSplineY s v).y = v ∧ (setSplineY s v).knots = s.knots ∧
    (setSplineY s v).splineX = s.splineX ∧ (setSplineY s v).splineY = s.splineY ∧
    (setSplineY s v).positions = s.positions ∧
    (setSplineY s v).curvature = s.curvature ∧ (setSplineY s v).yaw = s.yaw ∧
    (setSplineY s v).generationStep = s.generationStep :=
  ⟨rfl, rfl, rfl, rfl, rfl, rfl, rfl, rfl, rfl, rfl, rfl, rfl, rfl, rfl, rfl, rfl⟩

theorem mapM_ok_length {α β : Type} (f : α → Except PyErr β) :
    ∀ (l : List α) (out : List β), l.mapM f = .ok out → out.length = l.length := by
  intro l
  induction l with
  | nil =>
    intro out h
    simp only [List.mapM_nil] at h
    have : out = [] := (Except.ok.inj h).symm
    simp [this]
  | cons x xs ih =>
    intro out h
    rw [List.mapM_cons] at h
    cases hx : f x with
    | error e =>
      rw [hx] at h
      exact Except.noConfusion h
    | ok y =>
      rw [hx, ok_bind] at h
      cases hxs : xs.mapM f with
      | error e =>
        rw [hxs] at h
        exact Except.noConfusion h
      | ok ys =>
        rw [hxs, ok_bind] at h
        have hout : out = y :: ys := (Except.ok.inj h).symm
        simp [hout, ih ys hxs]

theorem bisectLoop_spec (l : List ℝ) (t : ℝ) :
    ∀ (n lo hi : ℕ), hi - lo = n → hi ≤ l.length →
      (∀ k, k < lo → l.getD k 0 ≤ t) →
      (∀ k, hi ≤ k → k < l.length → t < l.getD k 0) →
      l.Sorted (· ≤ ·) →
      lo ≤ bisectLoop l t lo hi ∧ bisectLoop l t lo hi ≤ max lo hi ∧
      (∀ k, k < bisectLoop l t lo hi → l.getD k 0 ≤ t) ∧
      (∀ k, bisectLoop l t lo hi ≤ k → k < l.length → t < l.getD k 0) := by
  intro n
  induction n using Nat.strong_induction_on with
  | _ n ih =>
    intro lo hi hn hhi hlow hhigh hsort
    rw [bisectLoop]
    by_cases hlt : lo < hi
    · rw [if_pos hlt]
      have hmid1 : (lo + hi) / 2 < hi := by omega
      have hmid2 : lo ≤ (lo + hi) / 2 := by omega
      have hmidlen : (lo + hi) / 2 < l.length := lt_of_lt_of_le hmid1 hhi
      have hgd : ∀ i j : ℕ, i ≤ j → j < l.length → l.getD i 0 ≤ l.getD j 0 := by
        intro i j hij hj
        rcases eq_or_lt_of_le hij with hij | hij
        · rw [hij]
        · have hi2 : i < l.length := lt_trans hij hj
          rw [List.getD_eq_getElem l 0 hi2, List.getD_eq_getElem l 0 hj]
          exact List.Sorted.rel_get_of_lt hsort hij
      by_cases hcmp : t < l.getD ((lo + hi) / 2) 0
      · rw [if_pos hcmp]
        have h1 := ih ((lo + hi) / 2 - lo) (by omega) lo ((lo + hi) / 2) rfl
          (le_of_lt hmidlen) hlow ?_ hsort
        · constructor
          · exact h1.1
          · refine ⟨le_trans h1.2.1 (by omega), h1.2.2⟩
        · intro k hk hk2
          exact lt_of_lt_of_le hcmp (hgd _ _ hk hk2)
      · rw [if_neg hcmp]
        push_neg at hcmp
        have h1 := ih (hi - ((lo + hi) / 2 + 1)) (by omega) ((lo + hi) / 2 + 1) hi rfl
          hhi ?_ hhigh hsort
        · refine ⟨by omega, ?_, h1.2.2⟩
          exact le_trans h1.2.1 (by omega)
        · intro k hk
          exact le_trans (hgd k ((lo + hi) / 2) (by omega) hmidlen) hcmp
    · rw [if_neg hlt]
      exact ⟨le_refl lo, le_max_left lo hi, hlow, fun k hk hk2 =>
        hhigh k (le_trans (by omega) hk) hk2⟩

theorem pybisect_spec (l : List ℝ) (t : ℝ) (hsort : l.Sorted (· ≤ ·)) :
    pybisect l t ≤ l.length ∧
    (∀ k, k < pybisect l t → l.getD k 0 ≤ t) ∧
    (∀ k, pybisect l t ≤ k → k < l.length → t < l.getD k 0) := by
  have h := bisectLoop_spec l t l.length 0 l.length (by omega) le_rfl
    (fun k hk => absurd hk (Nat.not_lt_zero k))
    (fun k hk hk2 => absurd hk2 (by omega)) hsort
  exact ⟨by simpa using h.2.1, h.2.2.1, h.2.2.2⟩

theorem pybisect_at_knot (l : List ℝ) (hs : l.Sorted (· < ·)) (i : ℕ)
    (hi : i < l.length) :
    pybisect l (l.getD i 0) = i + 1 := by
  have hsle : l.Sorted (· ≤ ·) := hs.le_of_lt
  obtain ⟨hle, hlow, hhigh⟩ := pybisect_spec l (l.getD i 0) hsle
  by_contra hne
  rcases lt_or_gt_of_ne hne with hlt | hgt
  · exact absurd (hhigh i (by omega) hi) (lt_irrefl _)
  · have hi1 : i + 1 < l.length := by omega
    have h1 : l.getD (i + 1) 0 ≤ l.getD i 0 := hlow (i + 1) (by omega)
    have h2 : l.getD i 0 < l.getD (i + 1) 0 := by
      rw [List.getD_eq_getElem l 0 hi, List.getD_eq_getElem l 0 hi1]
      exact List.Sorted.rel_get_of_lt hs (by simp [Fin.lt_def])
    exact absurd h1 (not_le.mpr h2)

theorem pybisect_interior (l : List ℝ) (t : ℝ) (hsort : l.Sorted (· ≤ ·))
    (hlen : 1 ≤ l.length) (h0 : l.getD 0 0 ≤ t) (h1 : t < l.getD (l.length - 1) 0) :
    1 ≤ pybisect l t ∧ pybisect l t ≤ l.length - 1 := by
  obtain ⟨hle, hlow, hhigh⟩ := pybisect_spec l t hsort
  constructor
  · by_contra hz
    push_neg at hz
    exact absurd (hhigh 0 (by omega) (by omega)) (not_lt.mpr h0)
  · by_contra hz
    push_neg at hz
    exact absurd (hlow (l.length - 1) (by omega)) (not_le.mpr h1)

theorem usplineInit_inv (x y : List ℝ) (s : USpline)
    (hok : usplineInit x y = .ok s) :
    s.xs = x ∧ s.d = y.take (x.length - 1) ∧
    s.a.length = x.length - 1 ∧ s.b.length = x.length - 1 ∧
    s.c.length = x.length - 1 ∧ s.d.length = x.length - 1 ∧
    x.length = y.length ∧ 2 ≤ x.length := by
  rw [usplineInit] at hok
  by_cases hlen : x.length ≠ y.length
  · rw [if_pos hlen] at hok
    exact Except.noConfusion hok
  · rw [if_neg hlen] at hok
    push_neg at hlen
    by_cases hlen2 : x.length < 2
    · rw [if_pos hlen2] at hok
      exact Except.noConfusion hok
    · rw [if_neg hlen2] at hok
      push_neg at hlen2
      dsimp only at hok
      cases hsolve : npSolve (matrixA (diffs x) x.length)
          (rhsVec (diffs x) y x.length) with
      | error e =>
        rw [hsolve, error_bind] at hok
        exact Except.noConfusion hok
      | ok bf =>
        rw [hsolve, ok_bind] at hok
        have hs : s = ⟨x, y, _, _, _, _⟩ := (Except.ok.inj hok).symm
        subst hs
        refine ⟨rfl, rfl, ?_, ?_, ?_, ?_, hlen, hlen2⟩
        · simp
        · simp only [List.length_take, List.length_ofFn]
          omega
        · simp
        · simp only [List.length_take]
          omega

theorem sorted_getD_mono (l : List ℝ) (hsort : l.Sorted (· ≤ ·)) (p q : ℕ)
    (hpq : p ≤ q) (hq : q < l.length) : l.getD p 0 ≤ l.getD q 0 := by
  rcases eq_or_lt_of_le hpq with h | h
  · rw [h]
  · rw [List.getD_eq_getElem l 0 (lt_trans h hq), List.getD_eq_getElem l 0 hq]
    exact List.Sorted.rel_get_of_lt hsort (by simp [Fin.lt_def, h])

theorem pyGet_nat (l : List ℝ) (i : ℕ) (hi : i < l.length) :
    pyGet l (i : ℤ) = .ok (l.getD i 0) := by
  rw [pyGet, if_pos ⟨Int.ofNat_nonneg i, by exact_mod_cast hi⟩]
  simp

theorem pyGet_big (l : List ℝ) (i : ℕ) (hi : l.length ≤ i) :
    pyGet l (i : ℤ) = .error .indexError := by
  rw [pyGet, if_neg, if_neg]
  · push_neg
    intro h
    omega
  · push_neg
    intro h
    exact_mod_cast Nat.cast_le.mpr hi

theorem position_at_knot (x y : List ℝ) (s : USpline)
    (hok : usplineInit x y = .ok s) (hs : x.Sorted (· < ·)) (i : ℕ)
    (hi : i + 1 < x.length) :
    s.position (x.getD i 0) = .ok (some (y.getD i 0)) := by
  obtain ⟨hxs, hd, hal, hbl, hcl, hdl, hxy, hn⟩ := usplineInit_inv x y s hok
  have hsle : x.Sorted (· ≤ ·) := hs.le_of_lt
  have hin : x.getD 0 0 ≤ x.getD i 0 ∧ x.getD i 0 ≤ x.getD (x.length - 1) 0 :=
    ⟨sorted_getD_mono x hsle 0 i (by omega) (by omega),
     sorted_getD_mono x hsle i (x.length - 1) (by omega) (by omega)⟩
  rw [USpline.position, hxs, if_neg (not_not_intro hin)]
  rw [pybisect_at_knot x hs i (by omega)]
  have hcast : ((i + 1 : ℕ) : ℤ) - 1 = (i : ℤ) := by
    push_cast
    ring
  rw [hcast]
  dsimp only
  rw [pyGet_nat x i (by omega), ok_bind]
  rw [pyGet_nat s.a i (by omega), ok_bind]
  rw [pyGet_nat s.b i (by omega), ok_bind]
  rw [pyGet_nat s.c i (by omega), ok_bind]
  rw [pyGet_nat s.d i (by omega), ok_bind]
  have hdi : s.d.getD i 0 = y.getD i 0 := by
    rw [hd]
    rw [List.getD_eq_getElem (y.take (x.length - 1)) 0 (by
      simp only [List.length_take]
      omega)]
    rw [List.getD_eq_getElem y 0 (by omega)]
    simp [List.getElem_take]
  rw [hdi]
  simp only [sub_self]
  norm_num
  rfl

theorem position_last_knot_indexerror (x y : List ℝ) (s : USpline)
    (hok : usplineInit x y = .ok s) (hs : x.Sorted (· < ·)) :
    s.position (x.getD (x.length - 1) 0) = .error .indexError := by
  obtain ⟨hxs, hd, hal, hbl, hcl, hdl, hxy, hn⟩ := usplineInit_inv x y s hok
  have hsle : x.Sorted (· ≤ ·) := hs.le_of_lt
  have hin : x.getD 0 0 ≤ x.getD (x.length - 1) 0 ∧
      x.getD (x.length - 1) 0 ≤ x.getD (x.length - 1) 0 :=
    ⟨sorted_getD_mono x hsle 0 (x.length - 1) (by omega) (by omega), le_refl _⟩
  rw [USpline.position, hxs, if_neg (not_not_intro hin)]
  have hbis : pybisect x (x.getD (x.length - 1) 0) = x.length := by
    rw [pybisect_at_knot x hs (x.length - 1) (by omega)]
    omega
  rw [hbis]
  have hcast : ((x.length : ℕ) : ℤ) - 1 = ((x.length - 1 : ℕ) : ℤ) := by omega
  rw [hcast]
  dsimp only
  rw [pyGet_nat x (x.length - 1) (by omega), ok_bind]
  rw [pyGet_big s.a (x.length - 1) (by omega), error_bind]

theorem scanl_add_pos :
    ∀ (l : List ℝ), (∀ d ∈ l, 0 < d) → ∀ a : ℝ,
      (List.scanl (fun acc d => acc + d) a l).Sorted (· < ·) ∧
      ∀ z ∈ List.scanl (fun acc d => acc + d) a l, a ≤ z := by
  intro l
  induction l with
  | nil =>
    intro hl a
    simp
  | cons h rest ih =>
    intro hl a
    have hh : 0 < h := hl h (by simp)
    have hrest : ∀ d ∈ rest, 0 < d := fun d hd => hl d (by simp [hd])
    obtain ⟨ihs, ihb⟩ := ih hrest (a + h)
    rw [List.scanl_cons, List.singleton_append]
    constructor
    · rw [List.sorted_cons]
      exact ⟨fun b hb => lt_of_lt_of_le (by linarith) (ihb b hb), ihs⟩
    · intro z hz
      rcases List.mem_cons.mp hz with hz | hz
      · rw [hz]
      · linarith [ihb z hz]

theorem diffs_length (l : List ℝ) : (diffs l).length = l.length - 1 := by
  simp only [diffs, List.length_zipWith, List.length_tail]
  omega

theorem diffs_getElem (l : List ℝ) (j : ℕ) (hj : j < (diffs l).length) :
    (diffs l)[j] = l.getD (j + 1) 0 - l.getD j 0 := by
  have hj2 : j + 1 < l.length := by
    have := diffs_length l
    omega
  simp only [diffs, List.getElem_zipWith]
  rw [List.getElem_tail, List.getD_eq_getElem l 0 hj2,
    List.getD_eq_getElem l 0 (show j < l.length by omega)]

theorem map_getD_coord (f : Coordinate → ℝ) (l : List Coordinate) (j : ℕ)
    (hj : j < l.length) :
    (l.map f).getD j 0 = f (l.getD j ⟨0, 0⟩) := by
  rw [List.getD_eq_getElem (l.map f) 0 (by simpa using hj),
    List.getD_eq_getElem l ⟨0, 0⟩ hj, List.getElem_map]

theorem computeKnots_length (coords : List Coordinate) (hn : 1 ≤ coords.length) :
    (computeKnots (coords.map Coordinate.x) (coords.map Coordinate.y)).length =
      coords.length := by
  rw [computeKnots, List.length_scanl, List.length_zipWith, diffs_length,
    diffs_length]
  simp only [List.length_map]
  omega

theorem computeKnots_sorted (coords : List Coordinate)
    (hdist : ∀ j, j + 1 < coords.length →
      coords.getD j ⟨0, 0⟩ ≠ coords.getD (j + 1) ⟨0, 0⟩) :
    (computeKnots (coords.map Coordinate.x)
      (coords.map Coordinate.y)).Sorted (· < ·) := by
  rw [computeKnots]
  refine (scanl_add_pos _ ?_ 0).1
  intro d hd
  rw [List.mem_iff_getElem] at hd
  obtain ⟨j, hj, hdj⟩ := hd
  have hjlen : j + 1 < coords.length := by
    rw [List.length_zipWith, diffs_length, diffs_length] at hj
    simp only [List.length_map] at hj
    omega
  rw [List.getElem_zipWith] at hdj
  rw [diffs_getElem _ j (by rw [List.length_zipWith] at hj; omega),
    diffs_getElem _ j (by rw [List.length_zipWith] at hj; omega)] at hdj
  rw [map_getD_coord Coordinate.x coords (j + 1) hjlen,
    map_getD_coord Coordinate.x coords j (by omega),
    map_getD_coord Coordinate.y coords (j + 1) hjlen,
    map_getD_coord Coordinate.y coords j (by omega)] at hdj
  rw [← hdj]
  rw [Real.sqrt_pos]
  rcases eq_or_ne ((coords.getD (j + 1) ⟨0, 0⟩).x - (coords.getD j ⟨0, 0⟩).x) 0
      with hx | hx
  · rcases eq_or_ne ((coords.getD (j + 1) ⟨0, 0⟩).y - (coords.getD j ⟨0, 0⟩).y) 0
        with hy | hy
    · exfalso
      apply hdist j hjlen
      have hxx : (coords.getD j ⟨0, 0⟩).x = (coords.getD (j + 1) ⟨0, 0⟩).x := by
        linarith
      have hyy : (coords.getD j ⟨0, 0⟩).y = (coords.getD (j + 1) ⟨0, 0⟩).y := by
        linarith
      cases hc1 : coords.getD j ⟨0, 0⟩ with
      | mk px py =>
        cases hc2 : coords.getD (j + 1) ⟨0, 0⟩ with
        | mk qx qy =>
          rw [hc1, hc2] at hxx hyy
          simp only [Coordinate.mk.injEq]
          exact ⟨hxx, hyy⟩
    · positivity
  · positivity

theorem splineInit_inv (coords : List Coordinate) (step : ℝ) (s : SplineS)
    (hok : splineInit coords step = .ok s) :
    s.knots = computeKnots (coords.map Coordinate.x) (coords.map Coordinate.y) ∧
    usplineInit s.knots (coords.map Coordinate.x) = .ok s.splineX ∧
    usplineInit s.knots (coords.map Coordinate.y) = .ok s.splineY ∧
    s.generationStep = step ∧
    computeResults s.knots s.splineX s.splineY step =
      .ok (s.positions, s.curvature, s.yaw) := by
  rw [splineInit] at hok
  rw [if_neg (by simp)] at hok
  dsimp only at hok
  cases hsx : usplineInit
      (computeKnots (coords.map Coordinate.x) (coords.map Coordinate.y))
      (coords.map Coordinate.x) with
  | error e =>
    rw [hsx, error_bind] at hok
    exact Except.noConfusion hok
  | ok sx =>
    rw [hsx, ok_bind] at hok
    cases hsy : usplineInit
        (computeKnots (coords.map Coordinate.x) (coords.map Coordinate.y))
        (coords.map Coordinate.y) with
    | error e =>
      rw [hsy, error_bind] at hok
      exact Except.noConfusion hok
    | ok sy =>
      rw [hsy, ok_bind] at hok
      cases hres : computeResults
          (computeKnots (coords.map Coordinate.x) (coords.map Coordinate.y))
          sx sy step with
      | error e =>
        rw [hres, error_bind] at hok
        exact Except.noConfusion hok
      | ok res =>
        rw [hres, ok_bind] at hok
        have hs : s = ⟨coords.map Coordinate.x, coords.map Coordinate.y, _,
            sx, sy, step, res.1, res.2.1, res.2.2⟩ := (Except.ok.inj hok).symm
        subst hs
        exact ⟨rfl, hsx, hsy, rfl, hres⟩

/-- C2 (amended): for every valid spline input (at least 3 points,
consecutive points distinct) and every input point except the last one
(index i with i + 1 < n), evaluating the fitted unidimensional splines at the
cumulative-arc-length knot t_i reproduces the input exactly; at the final
knot the query instead fails with an out-of-range access. -/
theorem spline_interpolates_interior (coords : List Coordinate) (step : ℝ)
    (s : SplineS) (hlen : 3 ≤ coords.length)
    (hdist : ∀ j, j + 1 < coords.length →
      coords.getD j ⟨0, 0⟩ ≠ coords.getD (j + 1) ⟨0, 0⟩)
    (hok : splineInit coords step = .ok s) (i : ℕ) (hi : i + 1 < coords.length) :
    s.splineX.position (s.knots.getD i 0) =
      .ok (some ((coords.getD i ⟨0, 0⟩).x)) ∧
    s.splineY.position (s.knots.getD i 0) =
      .ok (some ((coords.getD i ⟨0, 0⟩).y)) := by
  obtain ⟨hkn, hsx, hsy, hstep, hres⟩ := splineInit_inv coords step s hok
  have hsort : s.knots.Sorted (· < ·) := by
    rw [hkn]
    exact computeKnots_sorted coords hdist
  have hklen : s.knots.length = coords.length := by
    rw [hkn]
    exact computeKnots_length coords (by omega)
  constructor
  · have hpos := position_at_knot s.knots (coords.map Coordinate.x) s.splineX
      hsx hsort i (by omega)
    rw [map_getD_coord Coordinate.x coords i (by omega)] at hpos
    exact hpos
  · have hpos := position_at_knot s.knots (coords.map Coordinate.y) s.splineY
      hsy hsort i (by omega)
    rw [map_getD_coord Coordinate.y coords i (by omega)] at hpos
    exact hpos

theorem npArange_length (start stop step : ℝ) :
    (npArange start stop step).length = ⌈(stop - start) / step⌉₊ := by
  rw [npArange, List.length_map, List.length_range]

theorem computeResults_inv (knots : List ℝ) (sx sy : USpline) (step : ℝ)
    (out : List Coordinate × List ℝ × List ℝ)
    (h : computeResults knots sx sy step = .ok out) :
    out.1.length = ⌈(knots.getD (knots.length - 1) 0 - knots.getD 0 0) / step⌉₊ ∧
    out.2.1.length = out.1.length ∧ out.2.2.length = out.1.length := by
  rw [computeResults] at h
  dsimp only at h
  cases hmap : (npArange (knots.getD 0 0) (knots.getD (knots.length - 1) 0)
      step).mapM (resultTriple sx sy) with
  | error e =>
    rw [hmap, error_bind] at h
    exact Except.noConfusion h
  | ok items =>
    rw [hmap, ok_bind] at h
    by_cases hz : items.length = 0
    · rw [if_pos hz] at h
      exact Except.noConfusion h
    · rw [if_neg hz] at h
      have hout : out = (items.map Prod.fst, items.map (fun p => p.2.1),
          items.map (fun p => p.2.2)) := (Except.ok.inj h).symm
      subst hout
      have hlen := mapM_ok_length (resultTriple sx sy) _ items hmap
      simp only [List.length_map]
      refine ⟨?_, trivial, trivial⟩
      rw [hlen, npArange_length]

/-- C7: for every successfully constructed Spline with generation step
s > 0, the number of generated samples equals
ceil((knots[-1] - knots[0]) / s) (the final knot itself is excluded), and the
positions, yaw and curvature arrays all have exactly this same length. -/
theorem results_lengths (coords : List Coordinate) (step : ℝ) (s : SplineS)
    (hok : splineInit coords step = .ok s) (_hstep : 0 < step) :
    s.positions.length =
      ⌈(s.knots.getD (s.knots.length - 1) 0 - s.knots.getD 0 0) / step⌉₊ ∧
    s.curvature.length = s.positions.length ∧
    s.yaw.length = s.positions.length := by
  obtain ⟨hkn, hsx, hsy, hstep, hres⟩ := splineInit_inv coords step s hok
  exact computeResults_inv s.knots s.splineX s.splineY step _ hres

/-- C5 (amended): step validation lives only in the `generation_step`
property setter, which raises ValueError exactly for step <= 0; the
constructor itself performs neither the step nor the point-count check (see
the counterexample). -/
theorem genstep_setter_validates (s : SplineS) (v : ℝ) :
    (v ≤ 0 → setGenerationStep s v = .error .valueError) ∧
    (0 < v → setGenerationStep s v = .ok { s with generationStep := v }) := by
  constructor
  · intro h
    rw [setGenerationStep, if_pos h]
  · intro h
    rw [setGenerationStep, if_neg (not_le.mpr h)]

theorem sqrt_twentyfive : Real.sqrt 25 = 5 := by
  rw [show (25 : ℝ) = 5 ^ 2 by norm_num]
  exact Real.sqrt_sq (by norm_num)

theorem npSolve_eval {n : ℕ} (A : Matrix (Fin n) (Fin n) ℝ) (v b : Fin n → ℝ)
    (hdet : IsUnit A.det) (hb : A.mulVec b = v) : npSolve A v = .ok b := by
  rw [npSolve, if_pos hdet]
  congr 1
  rw [← hb, Matrix.mulVec_mulVec, Matrix.nonsing_inv_mul A hdet,
    Matrix.one_mulVec]

theorem matrixA_n2 (h : List ℝ) : matrixA h 2 = 1 := by
  ext i j
  fin_cases i <;> fin_cases j <;>
    simp [matrixA, Matrix.one_apply]

theorem rhsVec_n2 (h d : List ℝ) : rhsVec h d 2 = 0 := by
  funext i
  fin_cases i <;> simp [rhsVec]

theorem diffs_two : diffs [(0 : ℝ), 5] = [5] := by
  simp [diffs]

theorem uspline2x : usplineInit [0, 5] [0, 3] =
    .ok ⟨[0, 5], [0, 3], [0], [0], [3 / 5], [0]⟩ := by
  rw [usplineInit, if_neg (by simp), if_neg (by simp)]
  dsimp only
  simp only [List.length_cons, List.length_nil, List.length_singleton,
    Nat.zero_add, Nat.reduceAdd, diffs_two]
  rw [rhsVec_n2, matrixA_n2, npSolve_eval 1 0 0 (by simp) (by
    rw [Matrix.mulVec_zero]), ok_bind]
  simp only [List.ofFn_succ, List.ofFn_zero]
  norm_num [List.range_succ]
  rfl

theorem uspline2y : usplineInit [0, 5] [0, 4] =
    .ok ⟨[0, 5], [0, 4], [0], [0], [4 / 5], [0]⟩ := by
  rw [usplineInit, if_neg (by simp), if_neg (by simp)]
  dsimp only
  simp only [List.length_cons, List.length_nil, List.length_singleton,
    Nat.zero_add, Nat.reduceAdd, diffs_two]
  rw [rhsVec_n2, matrixA_n2, npSolve_eval 1 0 0 (by simp) (by
    rw [Matrix.mulVec_zero]), ok_bind]
  simp only [List.ofFn_succ, List.ofFn_zero]
  norm_num [List.range_succ]
  rfl

theorem knots_two : computeKnots [(0 : ℝ), 3] [(0 : ℝ), 4] = [0, 5] := by
  simp only [computeKnots, diffs, List.tail_cons, List.zipWith, List.scanl]
  norm_num
  exact sqrt_twentyfive

theorem bisect_05 (t : ℝ) (h0 : 0 ≤ t) (h5 : t < 5) : pybisect [0, 5] t = 1 := by
  show bisectLoop [0, 5] t 0 2 = 1
  rw [bisectLoop, if_pos (by norm_num)]
  norm_num [List.getD]
  rw [if_pos h5, bisectLoop, if_pos (by norm_num)]
  norm_num [List.getD]
  rw [if_neg (not_lt.mpr h0), bisectLoop, if_neg (by norm_num)]

theorem two_knot_position (ys : List ℝ) (cc t : ℝ) (h0 : 0 ≤ t) (h5 : t < 5) :
    USpline.position ⟨[0, 5], ys, [0], [0], [cc], [0]⟩ t = .ok (some (cc * t)) := by
  rw [USpline.position]
  simp only [List.length_cons, List.length_nil, Nat.zero_add, Nat.reduceAdd,
    List.getD_cons_zero, List.getD_cons_succ]
  rw [if_neg (not_not_intro ⟨h0, h5.le⟩)]
  rw [bisect_05 t h0 h5]
  rw [show ((1 : ℕ) : ℤ) - 1 = ((0 : ℕ) : ℤ) by norm_num]
  rw [pyGet_nat [0, 5] 0 (by norm_num)]
  rw [pyGet_nat [0] 0 (by norm_num)]
  rw [pyGet_nat [cc] 0 (by norm_num)]
  simp only [ok_bind, List.getD_cons_zero]
  have hv : (0 : ℝ) * (t - 0) ^ 3 + 0 * (t - 0) ^ 2 + cc * (t - 0) + 0 =
      cc * t := by ring
  rw [hv]
  rfl

theorem two_knot_first (ys : List ℝ) (cc t : ℝ) (h0 : 0 ≤ t) (h5 : t < 5) :
    USpline.firstDerivative ⟨[0, 5], ys, [0], [0], [cc], [0]⟩ t =
      .ok (some cc) := by
  rw [USpline.firstDerivative]
  simp only [List.length_cons, List.length_nil, Nat.zero_add, Nat.reduceAdd,
    List.getD_cons_zero, List.getD_cons_succ]
  rw [if_neg (not_not_intro ⟨h0, h5.le⟩)]
  rw [bisect_05 t h0 h5]
  rw [show ((1 : ℕ) : ℤ) - 1 = ((0 : ℕ) : ℤ) by norm_num]
  rw [pyGet_nat [0, 5] 0 (by norm_num)]
  rw [pyGet_nat [0] 0 (by norm_num)]
  rw [pyGet_nat [cc] 0 (by norm_num)]
  simp only [ok_bind, List.getD_cons_zero]
  have hv : 3 * (0 : ℝ) * (t - 0) ^ 2 + 2 * 0 * (t - 0) + cc = cc := by ring
  rw [hv]
  rfl

theorem two_knot_second (ys : List ℝ) (cc t : ℝ) (h0 : 0 ≤ t) (h5 : t < 5) :
    USpline.secondDerivative ⟨[0, 5], ys, [0], [0], [cc], [0]⟩ t =
      .ok (some 0) := by
  rw [USpline.secondDerivative]
  simp only [List.length_cons, List.length_nil, Nat.zero_add, Nat.reduceAdd,
    List.getD_cons_zero, List.getD_cons_succ]
  rw [if_neg (not_not_intro ⟨h0, h5.le⟩)]
  rw [bisect_05 t h0 h5]
  rw [show ((1 : ℕ) : ℤ) - 1 = ((0 : ℕ) : ℤ) by norm_num]
  rw [pyGet_nat [0, 5] 0 (by norm_num)]
  rw [pyGet_nat [0] 0 (by norm_num)]
  simp only [ok_bind, List.getD_cons_zero]
  have hv : 6 * (0 : ℝ) * (t - 0) + 2 * 0 = 0 := by ring
  rw [hv]
  rfl

theorem resultTriple_two (t : ℝ) (h0 : 0 ≤ t) (h5 : t < 5) :
    resultTriple ux2 uy2 t =
      .ok (⟨3 / 5 * t, 4 / 5 * t⟩, 0, pyAtan2 (4 / 5) (3 / 5)) := by
  rw [resultTriple]
  simp only [ux2, uy2]
  rw [two_knot_position [0, 3] (3 / 5) t h0 h5]
  rw [two_knot_position [0, 4] (4 / 5) t h0 h5]
  simp only [ok_bind]
  rw [computeCurvatureAt]
  rw [two_knot_first [0, 3] (3 / 5) t h0 h5]
  rw [two_knot_second [0, 3] (3 / 5) t h0 h5]
  rw [two_knot_first [0, 4] (4 / 5) t h0 h5]
  rw [two_knot_second [0, 4] (4 / 5) t h0 h5]
  simp only [ok_bind]
  rw [show ((3 / 5 : ℝ)) ^ 2 + (4 / 5) ^ 2 = 1 by norm_num]
  rw [pysqrt, if_neg (by norm_num), Real.sqrt_one]
  simp only [ok_bind]
  rw [pydiv, if_neg (by norm_num)]
  simp only [ok_bind]
  rw [show ((0 : ℝ) * (3 / 5) - 0 * (4 / 5)) / 1 = 0 by norm_num]
  rw [computeYawAt]
  rw [two_knot_first [0, 4] (4 / 5) t h0 h5]
  rw [two_knot_first [0, 3] (3 / 5) t h0 h5]
  simp only [ok_bind]
  rfl

theorem pure_bind {α β : Type} (a : α) (f : α → Except PyErr β) :
    (pure a >>= f : Except PyErr β) = f a := rfl

theorem ceil_five_halves : ⌈(5 : ℝ) / 2⌉₊ = 3 := by
  rw [Nat.ceil_eq_iff (by norm_num)]
  constructor
  · norm_num
  · norm_num

theorem arange_052 : npArange 0 5 2 = [0, 2, 4] := by
  rw [npArange, show ((5 : ℝ) - 0) / 2 = 5 / 2 by norm_num, ceil_five_halves]
  simp only [List.range_succ, List.range_zero, List.nil_append,
    List.cons_append, List.map_cons, List.map_nil]
  norm_num

theorem computeResults_two :
    computeResults [0, 5] ux2 uy2 2 =
      .ok ([⟨0, 0⟩, ⟨6 / 5, 8 / 5⟩, ⟨12 / 5, 16 / 5⟩], [0, 0, 0],
        [pyAtan2 (4 / 5) (3 / 5), pyAtan2 (4 / 5) (3 / 5),
         pyAtan2 (4 / 5) (3 / 5)]) := by
  rw [computeResults]
  dsimp only
  simp only [List.length_cons, List.length_nil, Nat.zero_add, Nat.reduceAdd,
    List.getD_cons_zero, List.getD_cons_succ]
  rw [arange_052]
  rw [List.mapM_cons, resultTriple_two 0 (by norm_num) (by norm_num), ok_bind]
  rw [List.mapM_cons, resultTriple_two 2 (by norm_num) (by norm_num), ok_bind]
  rw [List.mapM_cons, resultTriple_two 4 (by norm_num) (by norm_num), ok_bind]
  rw [List.mapM_nil]
  simp only [pure_bind, ok_bind]
  rw [if_neg (by norm_num)]
  simp only [List.map_cons, List.map_nil]
  norm_num
  rfl

theorem splineInit_two : splineInit [⟨0, 0⟩, ⟨3, 4⟩] 2 = .ok s2 := by
  rw [splineInit]
  rw [if_neg (by simp)]
  dsimp only [List.map_cons, List.map_nil]
  rw [knots_two]
  rw [uspline2x, ok_bind]
  rw [uspline2y, ok_bind]
  rw [show computeResults [0, 5]
      (⟨[0, 5], [0, 3], [0], [0], [3 / 5], [0]⟩ : USpline)
      (⟨[0, 5], [0, 4], [0], [0], [4 / 5], [0]⟩ : USpline) 2 =
      .ok ([⟨0, 0⟩, ⟨6 / 5, 8 / 5⟩, ⟨12 / 5, 16 / 5⟩], [0, 0, 0],
        [pyAtan2 (4 / 5) (3 / 5), pyAtan2 (4 / 5) (3 / 5),
         pyAtan2 (4 / 5) (3 / 5)]) from computeResults_two, ok_bind]
  rfl

theorem knots_three : computeKnots [(0 : ℝ), 3, 6] [(0 : ℝ), 4, 0] =
    [0, 5, 10] := by
  simp only [computeKnots, diffs, List.tail_cons, List.zipWith, List.scanl]
  norm_num
  rw [sqrt_twentyfive]
  norm_num

theorem matrixA_three_det : IsUnit (matrixA [5, 5] 3).det := by
  rw [Matrix.det_fin_three]
  simp only [matrixA, Matrix.of_apply]
  norm_num

theorem rhsVec_three_x : rhsVec [5, 5] [0, 3, 6] 3 = 0 := by
  funext i
  fin_cases i <;> simp [rhsVec] <;> norm_num

theorem rhsVec_three_y : rhsVec [5, 5] [0, 4, 0] 3 = ![0, -24 / 5, 0] := by
  funext i
  fin_cases i <;> simp [rhsVec] <;> norm_num

theorem mulVec_three_y :
    (matrixA [5, 5] 3).mulVec ![0, -6 / 25, 0] = ![0, -24 / 5, 0] := by
  funext i
  fin_cases i <;>
    simp [Matrix.mulVec, Matrix.dotProduct, Fin.sum_univ_three, matrixA] <;>
    norm_num

theorem diffs_three : diffs [(0 : ℝ), 5, 10] = [5, 5] := by
  simp [diffs]
  norm_num

theorem uspline3x : usplineInit [0, 5, 10] [0, 3, 6] =
    .ok ⟨[0, 5, 10], [0, 3, 6], [0, 0], [0, 0], [3 / 5, 3 / 5], [0, 3]⟩ := by
  rw [usplineInit, if_neg (by simp), if_neg (by simp)]
  dsimp only
  simp only [List.length_cons, List.length_nil, Nat.zero_add, Nat.reduceAdd,
    diffs_three]
  rw [rhsVec_three_x,
    npSolve_eval (matrixA [5, 5] 3) 0 0 matrixA_three_det (by
      rw [Matrix.mulVec_zero]), ok_bind]
  simp only [List.ofFn_succ, List.ofFn_zero]
  norm_num [List.range_succ]
  rfl

theorem uspline3y : usplineInit [0, 5, 10] [0, 4, 0] =
    .ok ⟨[0, 5, 10], [0, 4, 0], [-2 / 125, 2 / 125], [0, -6 / 25],
      [6 / 5, 0], [0, 4]⟩ := by
  rw [usplineInit, if_neg (by simp), if_neg (by simp)]
  dsimp only
  simp only [List.length_cons, List.length_nil, Nat.zero_add, Nat.reduceAdd,
    diffs_three]
  rw [rhsVec_three_y,
    npSolve_eval (matrixA [5, 5] 3) ![0, -24 / 5, 0] ![0, -6 / 25, 0]
      matrixA_three_det mulVec_three_y, ok_bind]
  simp only [List.ofFn_succ, List.ofFn_zero]
  norm_num [List.range_succ]
  rfl

theorem bisect_0510_seg0 (t : ℝ) (h0 : 0 ≤ t) (h5 : t < 5) :
    pybisect [0, 5, 10] t = 1 := by
  show bisectLoop [0, 5, 10] t 0 3 = 1
  rw [bisectLoop, if_pos (by norm_num)]
  norm_num [List.getD]
  rw [if_pos h5, bisectLoop, if_pos (by norm_num)]
  norm_num [List.getD]
  rw [if_neg (not_lt.mpr h0), bisectLoop, if_neg (by norm_num)]

theorem bisect_0510_seg1 (t : ℝ) (h5 : 5 ≤ t) (h10 : t < 10) :
    pybisect [0, 5, 10] t = 2 := by
  show bisectLoop [0, 5, 10] t 0 3 = 2
  rw [bisectLoop, if_pos (by norm_num)]
  norm_num [List.getD]
  rw [if_neg (not_lt.mpr h5), bisectLoop, if_pos (by norm_num)]
  norm_num [List.getD]
  rw [if_pos h10, bisectLoop, if_neg (by norm_num)]

theorem three_knot_first_seg0 (ys : List ℝ) (a0 a1 b0 b1 c0 c1 d0 d1 t : ℝ)
    (h0 : 0 ≤ t) (h5 : t < 5) :
    USpline.firstDerivative ⟨[0, 5, 10], ys, [a0, a1], [b0, b1], [c0, c1],
      [d0, d1]⟩ t = .ok (some (3 * a0 * t ^ 2 + 2 * b0 * t + c0)) := by
  rw [USpline.firstDerivative]
  simp only [List.length_cons, List.length_nil, Nat.zero_add, Nat.reduceAdd,
    List.getD_cons_zero, List.getD_cons_succ]
  rw [if_neg (not_not_intro ⟨h0, by linarith⟩)]
  rw [bisect_0510_seg0 t h0 h5]
  rw [show ((1 : ℕ) : ℤ) - 1 = ((0 : ℕ) : ℤ) by norm_num]
  rw [pyGet_nat [0, 5, 10] 0 (by norm_num)]
  rw [pyGet_nat [a0, a1] 0 (by norm_num)]
  rw [pyGet_nat [b0, b1] 0 (by norm_num)]
  rw [pyGet_nat [c0, c1] 0 (by norm_num)]
  simp only [ok_bind, List.getD_cons_zero]
  have hv : 3 * a0 * (t - 0) ^ 2 + 2 * b0 * (t - 0) + c0 =
      3 * a0 * t ^ 2 + 2 * b0 * t + c0 := by ring
  rw [hv]
  rfl

theorem three_knot_second_seg0 (ys : List ℝ) (a0 a1 b0 b1 c0 c1 d0 d1 t : ℝ)
    (h0 : 0 ≤ t) (h5 : t < 5) :
    USpline.secondDerivative ⟨[0, 5, 10], ys, [a0, a1], [b0, b1], [c0, c1],
      [d0, d1]⟩ t = .ok (some (6 * a0 * t + 2 * b0)) := by
  rw [USpline.secondDerivative]
  simp only [List.length_cons, List.length_nil, Nat.zero_add, Nat.reduceAdd,
    List.getD_cons_zero, List.getD_cons_succ]
  rw [if_neg (not_not_intro ⟨h0, by linarith⟩)]
  rw [bisect_0510_seg0 t h0 h5]
  rw [show ((1 : ℕ) : ℤ) - 1 = ((0 : ℕ) : ℤ) by norm_num]
  rw [pyGet_nat [0, 5, 10] 0 (by norm_num)]
  rw [pyGet_nat [a0, a1] 0 (by norm_num)]
  rw [pyGet_nat [b0, b1] 0 (by norm_num)]
  simp only [ok_bind, List.getD_cons_zero]
  have hv : 6 * a0 * (t - 0) + 2 * b0 = 6 * a0 * t + 2 * b0 := by ring
  rw [hv]
  rfl

theorem three_knot_position_seg0 (ys : List ℝ) (a0 a1 b0 b1 c0 c1 d0 d1 t : ℝ)
    (h0 : 0 ≤ t) (h5 : t < 5) :
    USpline.position ⟨[0, 5, 10], ys, [a0, a1], [b0, b1], [c0, c1],
      [d0, d1]⟩ t = .ok (some (a0 * t ^ 3 + b0 * t ^ 2 + c0 * t + d0)) := by
  rw [USpline.position]
  simp only [List.length_cons, List.length_nil, Nat.zero_add, Nat.reduceAdd,
    List.getD_cons_zero, List.getD_cons_succ]
  rw [if_neg (not_not_intro ⟨h0, by linarith⟩)]
  rw [bisect_0510_seg0 t h0 h5]
  rw [show ((1 : ℕ) : ℤ) - 1 = ((0 : ℕ) : ℤ) by norm_num]
  rw [pyGet_nat [0, 5, 10] 0 (by norm_num)]
  rw [pyGet_nat [a0, a1] 0 (by norm_num)]
  rw [pyGet_nat [b0, b1] 0 (by norm_num)]
  rw [pyGet_nat [c0, c1] 0 (by norm_num)]
  rw [pyGet_nat [d0, d1] 0 (by norm_num)]
  simp only [ok_bind, List.getD_cons_zero]
  have hv : a0 * (t - 0) ^ 3 + b0 * (t - 0) ^ 2 + c0 * (t - 0) + d0 =
      a0 * t ^ 3 + b0 * t ^ 2 + c0 * t + d0 := by ring
  rw [hv]
  rfl

theorem three_knot_position_seg1 (ys : List ℝ) (a0 a1 b0 b1 c0 c1 d0 d1 t : ℝ)
    (h5 : 5 ≤ t) (h10 : t < 10) :
    USpline.position ⟨[0, 5, 10], ys, [a0, a1], [b0, b1], [c0, c1],
      [d0, d1]⟩ t =
      .ok (some (a1 * (t - 5) ^ 3 + b1 * (t - 5) ^ 2 + c1 * (t - 5) + d1)) := by
  rw [USpline.position]
  simp only [List.length_cons, List.length_nil, Nat.zero_add, Nat.reduceAdd,
    List.getD_cons_zero, List.getD_cons_succ]
  rw [if_neg (not_not_intro ⟨by linarith, by linarith⟩)]
  rw [bisect_0510_seg1 t h5 h10]
  rw [show ((2 : ℕ) : ℤ) - 1 = ((1 : ℕ) : ℤ) by norm_num]
  rw [pyGet_nat [0, 5, 10] 1 (by norm_num)]
  rw [pyGet_nat [a0, a1] 1 (by norm_num)]
  rw [pyGet_nat [b0, b1] 1 (by norm_num)]
  rw [pyGet_nat [c0, c1] 1 (by norm_num)]
  rw [pyGet_nat [d0, d1] 1 (by norm_num)]
  simp only [ok_bind, List.getD_cons_zero, List.getD_cons_succ]
  rfl

theorem three_knot_first_seg1 (ys : List ℝ) (a0 a1 b0 b1 c0 c1 d0 d1 t : ℝ)
    (h5 : 5 ≤ t) (h10 : t < 10) :
    USpline.firstDerivative ⟨[0, 5, 10], ys, [a0, a1], [b0, b1], [c0, c1],
      [d0, d1]⟩ t =
      .ok (some (3 * a1 * (t - 5) ^ 2 + 2 * b1 * (t - 5) + c1)) := by
  rw [USpline.firstDerivative]
  simp only [List.length_cons, List.length_nil, Nat.zero_add, Nat.reduceAdd,
    List.getD_cons_zero, List.getD_cons_succ]
  rw [if_neg (not_not_intro ⟨by linarith, by linarith⟩)]
  rw [bisect_0510_seg1 t h5 h10]
  rw [show ((2 : ℕ) : ℤ) - 1 = ((1 : ℕ) : ℤ) by norm_num]
  rw [pyGet_nat [0, 5, 10] 1 (by norm_num)]
  rw [pyGet_nat [a0, a1] 1 (by norm_num)]
  rw [pyGet_nat [b0, b1] 1 (by norm_num)]
  rw [pyGet_nat [c0, c1] 1 (by norm_num)]
  simp only [ok_bind, List.getD_cons_zero, List.getD_cons_succ]
  rfl

theorem three_knot_second_seg1 (ys : List ℝ) (a0 a1 b0 b1 c0 c1 d0 d1 t : ℝ)
    (h5 : 5 ≤ t) (h10 : t < 10) :
    USpline.secondDerivative ⟨[0, 5, 10], ys, [a0, a1], [b0, b1], [c0, c1],
      [d0, d1]⟩ t = .ok (some (6 * a1 * (t - 5) + 2 * b1)) := by
  rw [USpline.secondDerivative]
  simp only [List.length_cons, List.length_nil, Nat.zero_add, Nat.reduceAdd,
    List.getD_cons_zero, List.getD_cons_succ]
  rw [if_neg (not_not_intro ⟨by linarith, by linarith⟩)]
  rw [bisect_0510_seg1 t h5 h10]
  rw [show ((2 : ℕ) : ℤ) - 1 = ((1 : ℕ) : ℤ) by norm_num]
  rw [pyGet_nat [0, 5, 10] 1 (by norm_num)]
  rw [pyGet_nat [a0, a1] 1 (by norm_num)]
  rw [pyGet_nat [b0, b1] 1 (by norm_num)]
  simp only [ok_bind, List.getD_cons_zero, List.getD_cons_succ]
  rfl

theorem resultTriple_three_0 :
    resultTriple ux3 uy3 0 = .ok (⟨0, 0⟩, 0, pyAtan2 (6 / 5) (3 / 5)) := by
  rw [resultTriple]
  simp only [ux3, uy3]
  rw [three_knot_position_seg0 [0, 3, 6] 0 0 0 0 (3 / 5) (3 / 5) 0 3 0
    le_rfl (by norm_num)]
  rw [three_knot_position_seg0 [0, 4, 0] (-2 / 125) (2 / 125) 0 (-6 / 25)
    (6 / 5) 0 0 4 0 le_rfl (by norm_num)]
  simp only [ok_bind]
  rw [computeCurvatureAt]
  rw [three_knot_first_seg0 [0, 3, 6] 0 0 0 0 (3 / 5) (3 / 5) 0 3 0
    le_rfl (by norm_num)]
  rw [three_knot_second_seg0 [0, 3, 6] 0 0 0 0 (3 / 5) (3 / 5) 0 3 0
    le_rfl (by norm_num)]
  rw [three_knot_first_seg0 [0, 4, 0] (-2 / 125) (2 / 125) 0 (-6 / 25)
    (6 / 5) 0 0 4 0 le_rfl (by norm_num)]
  rw [three_knot_second_seg0 [0, 4, 0] (-2 / 125) (2 / 125) 0 (-6 / 25)
    (6 / 5) 0 0 4 0 le_rfl (by norm_num)]
  simp only [ok_bind]
  rw [show (3 * (0 : ℝ) * 0 ^ 2 + 2 * 0 * 0 + 3 / 5) ^ 2 +
      (3 * (-2 / 125) * 0 ^ 2 + 2 * 0 * 0 + 6 / 5) ^ 2 = 9 / 5 by norm_num]
  rw [pysqrt, if_neg (by norm_num)]
  simp only [ok_bind]
  rw [pydiv, if_neg (by positivity)]
  simp only [ok_bind]
  rw [computeYawAt]
  rw [three_knot_first_seg0 [0, 4, 0] (-2 / 125) (2 / 125) 0 (-6 / 25)
    (6 / 5) 0 0 4 0 le_rfl (by norm_num)]
  rw [three_knot_first_seg0 [0, 3, 6] 0 0 0 0 (3 / 5) (3 / 5) 0 3 0
    le_rfl (by norm_num)]
  simp only [ok_bind]
  norm_num
  rfl

theorem resultTriple_three_4 :
    resultTriple ux3 uy3 4 =
      .ok (⟨12 / 5, 472 / 125⟩, -144 / 625 / Real.sqrt (8541 / 15625),
        pyAtan2 (54 / 125) (3 / 5)) := by
  rw [resultTriple]
  simp only [ux3, uy3]
  rw [three_knot_position_seg0 [0, 3, 6] 0 0 0 0 (3 / 5) (3 / 5) 0 3 4
    (by norm_num) (by norm_num)]
  rw [three_knot_position_seg0 [0, 4, 0] (-2 / 125) (2 / 125) 0 (-6 / 25)
    (6 / 5) 0 0 4 4 (by norm_num) (by norm_num)]
  simp only [ok_bind]
  rw [computeCurvatureAt]
  rw [three_knot_first_seg0 [0, 3, 6] 0 0 0 0 (3 / 5) (3 / 5) 0 3 4
    (by norm_num) (by norm_num)]
  rw [three_knot_second_seg0 [0, 3, 6] 0 0 0 0 (3 / 5) (3 / 5) 0 3 4
    (by norm_num) (by norm_num)]
  rw [three_knot_first_seg0 [0, 4, 0] (-2 / 125) (2 / 125) 0 (-6 / 25)
    (6 / 5) 0 0 4 4 (by norm_num) (by norm_num)]
  rw [three_knot_second_seg0 [0, 4, 0] (-2 / 125) (2 / 125) 0 (-6 / 25)
    (6 / 5) 0 0 4 4 (by norm_num) (by norm_num)]
  simp only [ok_bind]
  rw [show (3 * (0 : ℝ) * 4 ^ 2 + 2 * 0 * 4 + 3 / 5) ^ 2 +
      (3 * (-2 / 125) * 4 ^ 2 + 2 * 0 * 4 + 6 / 5) ^ 2 = 8541 / 15625 by
    norm_num]
  rw [pysqrt, if_neg (by norm_num)]
  simp only [ok_bind]
  rw [pydiv, if_neg (by positivity)]
  simp only [ok_bind]
  rw [computeYawAt]
  rw [three_knot_first_seg0 [0, 4, 0] (-2 / 125) (2 / 125) 0 (-6 / 25)
    (6 / 5) 0 0 4 4 (by norm_num) (by norm_num)]
  rw [three_knot_first_seg0 [0, 3, 6] 0 0 0 0 (3 / 5) (3 / 5) 0 3 4
    (by norm_num) (by norm_num)]
  simp only [ok_bind]
  norm_num
  rfl

theorem resultTriple_three_8 :
    resultTriple ux3 uy3 8 =
      .ok (⟨24 / 5, 284 / 125⟩, -72 / 625 / Real.sqrt (21501 / 15625),
        pyAtan2 (-126 / 125) (3 / 5)) := by
  rw [resultTriple]
  simp only [ux3, uy3]
  rw [three_knot_position_seg1 [0, 3, 6] 0 0 0 0 (3 / 5) (3 / 5) 0 3 8
    (by norm_num) (by norm_num)]
  rw [three_knot_position_seg1 [0, 4, 0] (-2 / 125) (2 / 125) 0 (-6 / 25)
    (6 / 5) 0 0 4 8 (by norm_num) (by norm_num)]
  simp only [ok_bind]
  rw [computeCurvatureAt]
  rw [three_knot_first_seg1 [0, 3, 6] 0 0 0 0 (3 / 5) (3 / 5) 0 3 8
    (by norm_num) (by norm_num)]
  rw [three_knot_second_seg1 [0, 3, 6] 0 0 0 0 (3 / 5) (3 / 5) 0 3 8
    (by norm_num) (by norm_num)]
  rw [three_knot_first_seg1 [0, 4, 0] (-2 / 125) (2 / 125) 0 (-6 / 25)
    (6 / 5) 0 0 4 8 (by norm_num) (by norm_num)]
  rw [three_knot_second_seg1 [0, 4, 0] (-2 / 125) (2 / 125) 0 (-6 / 25)
    (6 / 5) 0 0 4 8 (by norm_num) (by norm_num)]
  simp only [ok_bind]
  rw [show (3 * (0 : ℝ) * (8 - 5) ^ 2 + 2 * 0 * (8 - 5) + 3 / 5) ^ 2 +
      (3 * (2 / 125) * (8 - 5) ^ 2 + 2 * (-6 / 25) * (8 - 5) + 0) ^ 2 =
      21501 / 15625 by norm_num]
  rw [pysqrt, if_neg (by norm_num)]
  simp only [ok_bind]
  rw [pydiv, if_neg (by positivity)]
  simp only [ok_bind]
  rw [computeYawAt]
  rw [three_knot_first_seg1 [0, 4, 0] (-2 / 125) (2 / 125) 0 (-6 / 25)
    (6 / 5) 0 0 4 8 (by norm_num) (by norm_num)]
  rw [three_knot_first_seg1 [0, 3, 6] 0 0 0 0 (3 / 5) (3 / 5) 0 3 8
    (by norm_num) (by norm_num)]
  simp only [ok_bind]
  norm_num
  rfl

theorem arange_0104 : npArange 0 10 4 = [0, 4, 8] := by
  rw [npArange, show ((10 : ℝ) - 0) / 4 = 5 / 2 by norm_num, ceil_five_halves]
  simp only [List.range_succ, List.range_zero, List.nil_append,
    List.cons_append, List.map_cons, List.map_nil]
  norm_num

theorem computeResults_three :
    computeResults [0, 5, 10] ux3 uy3 4 =
      .ok ([⟨0, 0⟩, ⟨12 / 5, 472 / 125⟩, ⟨24 / 5, 284 / 125⟩],
        [0, -144 / 625 / Real.sqrt (8541 / 15625),
         -72 / 625 / Real.sqrt (21501 / 15625)],
        [pyAtan2 (6 / 5) (3 / 5), pyAtan2 (54 / 125) (3 / 5),
         pyAtan2 (-126 / 125) (3 / 5)]) := by
  rw [computeResults]
  dsimp only
  simp only [List.length_cons, List.length_nil, Nat.zero_add, Nat.reduceAdd,
    List.getD_cons_zero, List.getD_cons_succ]
  rw [arange_0104]
  rw [List.mapM_cons, resultTriple_three_0, ok_bind]
  rw [List.mapM_cons, resultTriple_three_4, ok_bind]
  rw [List.mapM_cons, resultTriple_three_8, ok_bind]
  rw [List.mapM_nil]
  simp only [pure_bind, ok_bind]
  rw [if_neg (by norm_num)]
  simp only [List.map_cons, List.map_nil]
  rfl

theorem splineInit_three : splineInit [⟨0, 0⟩, ⟨3, 4⟩, ⟨6, 0⟩] 4 =
    .ok sCurve := by
  rw [splineInit]
  rw [if_neg (by simp)]
  dsimp only [List.map_cons, List.map_nil]
  rw [knots_three]
  rw [uspline3x, ok_bind]
  rw [uspline3y, ok_bind]
  rw [show computeResults [0, 5, 10]
      (⟨[0, 5, 10], [0, 3, 6], [0, 0], [0, 0], [3 / 5, 3 / 5], [0, 3]⟩ :
        USpline)
      (⟨[0, 5, 10], [0, 4, 0], [-2 / 125, 2 / 125], [0, -6 / 25], [6 / 5, 0],
        [0, 4]⟩ : USpline) 4 =
      .ok ([⟨0, 0⟩, ⟨12 / 5, 472 / 125⟩, ⟨24 / 5, 284 / 125⟩],
        [0, -144 / 625 / Real.sqrt (8541 / 15625),
         -72 / 625 / Real.sqrt (21501 / 15625)],
        [pyAtan2 (6 / 5) (3 / 5), pyAtan2 (54 / 125) (3 / 5),
         pyAtan2 (-126 / 125) (3 / 5)]) from computeResults_three, ok_bind]
  rfl

theorem sorted_0510 : ([(0 : ℝ), 5, 10]).Sorted (· < ·) := by
  simp [List.sorted_cons]
  norm_num

/-- C4: the resolved segment index is NOT clamped: for every fitted
unidimensional spline with strictly increasing knots, querying `position` at
t exactly equal to the last knot resolves index n - 1, out of bounds of the
coefficient arrays of length n - 1, and the query fails with IndexError
rather than returning the value of the last cubic segment. -/
theorem search_index_not_clamped (x y : List ℝ) (s : USpline)
    (hok : usplineInit x y = .ok s) (hs : x.Sorted (· < ·)) :
    s.position (x.getD (x.length - 1) 0) = .error .indexError :=
  position_last_knot_indexerror x y s hok hs

/-- C4 witness: the out-of-range theorem applied to the concrete 3-knot
spline; position at the last knot 10 raises IndexError. -/
theorem search_index_not_clamped_witness :
    ux3.position 10 = .error .indexError :=
  search_index_not_clamped [0, 5, 10] [0, 3, 6] ux3 uspline3x sorted_0510

/-- C2 counterexample: on the constructed 3-point spline, querying the fitted
x spline at the final knot 10 raises IndexError instead of returning the last
input x value 6, so the claim fails at the last input point. -/
theorem interpolation_last_knot_cex :
    splineInit [⟨0, 0⟩, ⟨3, 4⟩, ⟨6, 0⟩] 4 = .ok sCurve ∧
    sCurve.knots.getD 2 0 = 10 ∧
    sCurve.splineX.position 10 = .error .indexError ∧
    (Except.error PyErr.indexError : Except PyErr (Option ℝ)) ≠
      .ok (some 6) := by
  refine ⟨splineInit_three, rfl, ?_, fun h => Except.noConfusion h⟩
  exact position_last_knot_indexerror [0, 5, 10] [0, 3, 6] ux3 uspline3x
    sorted_0510

/-- C2 witness: the interpolation theorem applied to the concrete 3-point
spline at input index 1. -/
theorem spline_interpolates_interior_witness :
    sCurve.splineX.position (sCurve.knots.getD 1 0) =
      .ok (some (([(⟨0, 0⟩ : Coordinate), ⟨3, 4⟩, ⟨6, 0⟩].getD 1 ⟨0, 0⟩).x)) ∧
    sCurve.splineY.position (sCurve.knots.getD 1 0) =
      .ok (some (([(⟨0, 0⟩ : Coordinate), ⟨3, 4⟩, ⟨6, 0⟩].getD 1 ⟨0, 0⟩).y)) :=
  spline_interpolates_interior [⟨0, 0⟩, ⟨3, 4⟩, ⟨6, 0⟩] 4 sCurve
    (by norm_num)
    (by
      intro j hj
      simp only [List.length_cons, List.length_nil] at hj
      rcases j with _ | _ | j
      · intro h
        have := congrArg Coordinate.x h
        simp only [List.getD_cons_zero, List.getD_cons_succ] at this
        norm_num at this
      · intro h
        have := congrArg Coordinate.x h
        simp only [List.getD_cons_zero, List.getD_cons_succ] at this
        norm_num at this
      · exact absurd hj (by omega))
    splineInit_three 1 (by norm_num)

/-- C5 counterexample: `Spline.__init__` performs no point-count validation:
a 2-point input (fewer than 3 points) constructs successfully instead of
failing with an insufficient-points error. -/
theorem two_point_init_succeeds_cex :
    splineInit [⟨0, 0⟩, ⟨3, 4⟩] 2 = .ok s2 ∧
    ([(⟨0, 0⟩ : Coordinate), ⟨3, 4⟩] : List Coordinate).length < 3 :=
  ⟨splineInit_two, by norm_num⟩

/-- C5 witness: the setter theorem applied at the concrete steps -1
(rejected) and 3 (accepted). -/
theorem genstep_setter_validates_witness :
    setGenerationStep s2 (-1) = .error .valueError ∧
    setGenerationStep s2 3 = .ok { s2 with generationStep := 3 } :=
  ⟨(genstep_setter_validates s2 (-1)).1 (by norm_num),
   (genstep_setter_validates s2 3).2 (by norm_num)⟩

/-- C7 witness: the length theorem applied to the concrete 2-point spline
with step 2 (3 samples). -/
theorem results_lengths_witness :
    s2.positions.length =
      ⌈(s2.knots.getD (s2.knots.length - 1) 0 - s2.knots.getD 0 0) / 2⌉₊ ∧
    s2.curvature.length = s2.positions.length ∧
    s2.yaw.length = s2.positions.length :=
  results_lengths [⟨0, 0⟩, ⟨3, 4⟩] 2 s2 splineInit_two (by norm_num)

/-- C3: on the constructed 3-point spline, at the generated grid point t = 4
the stored curvature value is the code value
(y2*x1 - x2*y1) / sqrt(x1^2 + y1^2), with the stated first and second
derivatives, and this differs from the claimed formula
(y2*x1 - x2*y1) / (x1^2 + y1^2)^1.5: the code divides by the 0.5 power of the
speed squared, not the 1.5 power. -/
theorem curvature_denominator_divergence :
    splineInit [⟨0, 0⟩, ⟨3, 4⟩, ⟨6, 0⟩] 4 = .ok sCurve ∧
    sCurve.splineX.firstDerivative 4 = .ok (some (3 / 5)) ∧
    sCurve.splineX.secondDerivative 4 = .ok (some 0) ∧
    sCurve.splineY.firstDerivative 4 = .ok (some (54 / 125)) ∧
    sCurve.splineY.secondDerivative 4 = .ok (some (-48 / 125)) ∧
    sCurve.curvature.getD 1 0 = -144 / 625 / Real.sqrt (8541 / 15625) ∧
    sCurve.curvature.getD 1 0 ≠
      specCurvature (3 / 5) (54 / 125) 0 (-48 / 125) := by
  have hS : (0 : ℝ) < 8541 / 15625 := by norm_num
  have hsne : Real.sqrt (8541 / 15625) ≠ 0 := ne_of_gt (Real.sqrt_pos.mpr hS)
  refine ⟨splineInit_three, ?_, ?_, ?_, ?_, rfl, ?_⟩
  · rw [show sCurve.splineX = ux3 from rfl, ux3]
    rw [three_knot_first_seg0 [0, 3, 6] 0 0 0 0 (3 / 5) (3 / 5) 0 3 4
      (by norm_num) (by norm_num)]
    norm_num
  · rw [show sCurve.splineX = ux3 from rfl, ux3]
    rw [three_knot_second_seg0 [0, 3, 6] 0 0 0 0 (3 / 5) (3 / 5) 0 3 4
      (by norm_num) (by norm_num)]
    norm_num
  · rw [show sCurve.splineY = uy3 from rfl, uy3]
    rw [three_knot_first_seg0 [0, 4, 0] (-2 / 125) (2 / 125) 0 (-6 / 25)
      (6 / 5) 0 0 4 4 (by norm_num) (by norm_num)]
    norm_num
  · rw [show sCurve.splineY = uy3 from rfl, uy3]
    rw [three_knot_second_seg0 [0, 4, 0] (-2 / 125) (2 / 125) 0 (-6 / 25)
      (6 / 5) 0 0 4 4 (by norm_num) (by norm_num)]
    norm_num
  · rw [show sCurve.curvature.getD 1 0 =
        -144 / 625 / Real.sqrt (8541 / 15625) from rfl]
    rw [specCurvature]
    rw [show ((3 / 5 : ℝ) ^ 2 + (54 / 125) ^ 2) = 8541 / 15625 by norm_num]
    rw [show ((8541 / 15625 : ℝ)) ^ (3 / 2 : ℝ) =
        (8541 / 15625) * Real.sqrt (8541 / 15625) by
      rw [show (3 / 2 : ℝ) = 1 + 1 / 2 by norm_num, Real.rpow_add hS,
        Real.rpow_one, ← Real.sqrt_eq_rpow]]
    rw [show ((-48 / 125 : ℝ) * (3 / 5) - 0 * (54 / 125)) = -144 / 625 by
      norm_num]
    intro heq
    rw [div_eq_div_iff hsne (mul_ne_zero (by norm_num) hsne)] at heq
    have hc := mul_left_cancel₀ (show (-144 / 625 : ℝ) ≠ 0 by norm_num) heq
    nth_rewrite 2 [← one_mul (Real.sqrt (8541 / 15625))] at hc
    have h3 := mul_right_cancel₀ hsne hc
    norm_num at h3
